import Mathlib

/-!
Shallow embedding of the Book-Library bookstore service (Go) and proofs about it.

The embedding models:
- Go maps (`map[int]V`) as association lists with unique keys (`mget`/`mput`/`mdel`);
  the list order plays the role of an explicit, adversarially chosen iteration order
  where Go leaves iteration order unspecified.
- the in-memory stores (`InmemoryStores`) and the PostgreSQL-backed stores
  (`postgresStores`) as pure state-passing functions; a PostgreSQL transaction is a
  single atomic update of the modelled table state, and deterministic database
  failures (duplicate primary key, `rowsAffected == 0`, foreign-key violation on
  `order_items.order_id`) are modelled as the corresponding error returns.
- the HTTP controllers (`Controllers/orderController.go`, authorController) as
  functions from a system state and a decoded request to a new system state and a
  result (`Except ErrorResponse`); JSON-file persistence and logging are modelled
  as no-ops, HTTP status codes are represented by the error/ok distinction.
- Go `float64` prices/revenues as rationals, Go `int` as `Int`, `time.Time` as an
  integer timestamp measured in hours (only order and interval comparisons of
  times are used by the modelled code).

Book records keep the fields the modelled code reads or writes (`ID`, `Title`,
`Author.ID`, `Price`, `Stock`); fields that no modelled operation inspects
(genres, dates, review aggregates, customer addresses, password hashes) are
elided.
-/

set_option autoImplicit false

namespace BookLib

/-! ## Go map model -/

/-- Lookup in an association list modelling a Go `map[int]V`. -/
def mget {V : Type} : List (Int × V) → Int → Option V
  | [], _ => none
  | (k, v) :: rest, key => if k = key then some v else mget rest key

/-- Insertion / in-place replacement, modelling `m[key] = v` on a Go map.
A fresh key is appended at the end, so for a map never touched by `mdel`
the list order is the insertion order of the keys. -/
def mput {V : Type} : List (Int × V) → Int → V → List (Int × V)
  | [], key, v => [(key, v)]
  | (k, w) :: rest, key, v =>
      if k = key then (key, v) :: rest else (k, w) :: mput rest key v

/-- Deletion, modelling `delete(m, key)` on a Go map. -/
def mdel {V : Type} : List (Int × V) → Int → List (Int × V)
  | [], _ => []
  | (k, w) :: rest, key =>
      if k = key then mdel rest key else (k, w) :: mdel rest key

/-- The values of the map, in list (= iteration) order. -/
def mvals {V : Type} (m : List (Int × V)) : List V := m.map Prod.snd

/-- The keys of the map, in list order. -/
def mkeys {V : Type} (m : List (Int × V)) : List Int := m.map Prod.fst

@[simp] theorem mget_nil {V : Type} (k : Int) : mget ([] : List (Int × V)) k = none := rfl

theorem mget_cons {V : Type} (k key : Int) (v : V) (rest : List (Int × V)) :
    mget ((k, v) :: rest) key = if k = key then some v else mget rest key := rfl

@[simp] theorem mget_mput_self {V : Type} (m : List (Int × V)) (k : Int) (v : V) :
    mget (mput m k v) k = some v := by
  induction m with
  | nil => simp [mput, mget]
  | cons p rest ih =>
      obtain ⟨k', w⟩ := p
      by_cases h : k' = k <;> simp [mput, mget, h, ih]

theorem mget_mput_ne {V : Type} (m : List (Int × V)) (k k' : Int) (v : V)
    (h : k' ≠ k) : mget (mput m k v) k' = mget m k' := by
  have hk : k ≠ k' := Ne.symm h
  induction m with
  | nil => simp [mput, mget, hk]
  | cons p rest ih =>
      obtain ⟨k0, w⟩ := p
      by_cases h0 : k0 = k
      · subst h0
        simp [mput, mget, hk]
      · simp [mput, mget, h0, ih]

@[simp] theorem mget_mdel_self {V : Type} (m : List (Int × V)) (k : Int) :
    mget (mdel m k) k = none := by
  induction m with
  | nil => simp [mdel]
  | cons p rest ih =>
      obtain ⟨k0, w⟩ := p
      by_cases h0 : k0 = k <;> simp [mdel, mget, h0, ih]

theorem mget_mdel_ne {V : Type} (m : List (Int × V)) (k k' : Int) (h : k' ≠ k) :
    mget (mdel m k) k' = mget m k' := by
  have hk : k ≠ k' := Ne.symm h
  induction m with
  | nil => simp [mdel]
  | cons p rest ih =>
      obtain ⟨k0, w⟩ := p
      by_cases h0 : k0 = k
      · subst h0
        simp [mdel, mget, hk, ih]
      · simp [mdel, mget, h0, ih]

theorem mget_eq_some_mem {V : Type} {m : List (Int × V)} {k : Int} {v : V}
    (h : mget m k = some v) : (k, v) ∈ m := by
  induction m with
  | nil => simp [mget] at h
  | cons p rest ih =>
      obtain ⟨k0, w⟩ := p
      by_cases h0 : k0 = k
      · subst h0
        simp [mget] at h
        simp [h]
      · simp [mget, h0] at h
        exact List.mem_cons_of_mem _ (ih h)

theorem mem_mput {V : Type} {m : List (Int × V)} {k : Int} {v : V} {p : Int × V}
    (h : p ∈ mput m k v) : p = (k, v) ∨ p ∈ m := by
  induction m with
  | nil => simpa [mput] using h
  | cons q rest ih =>
      obtain ⟨k0, w⟩ := q
      by_cases h0 : k0 = k
      · subst h0
        rcases (by simpa [mput] using h : p = (k0, v) ∨ p ∈ rest) with h1 | h1
        · exact Or.inl h1
        · exact Or.inr (List.mem_cons_of_mem _ h1)
      · rcases (by simpa [mput, h0] using h : p = (k0, w) ∨ p ∈ mput rest k v) with h1 | h1
        · exact Or.inr (by simp [h1])
        · rcases ih h1 with h2 | h2
          · exact Or.inl h2
          · exact Or.inr (List.mem_cons_of_mem _ h2)

theorem mem_mdel {V : Type} {m : List (Int × V)} {k : Int} {p : Int × V}
    (h : p ∈ mdel m k) : p ∈ m := by
  induction m with
  | nil => simp [mdel] at h
  | cons q rest ih =>
      obtain ⟨k0, w⟩ := q
      by_cases h0 : k0 = k
      · exact List.mem_cons_of_mem _ (ih (by simpa [mdel, h0] using h))
      · rcases (by simpa [mdel, h0] using h : p = (k0, w) ∨ p ∈ mdel rest k) with h1 | h1
        · simp [h1]
        · exact List.mem_cons_of_mem _ (ih h1)

theorem mem_mkeys_mput {V : Type} {m : List (Int × V)} {k a : Int} {v : V}
    (h : a ∈ mkeys (mput m k v)) : a = k ∨ a ∈ mkeys m := by
  rcases List.mem_map.mp h with ⟨p, hp, hpa⟩
  rcases mem_mput hp with h1 | h1
  · left; rw [← hpa, h1]
  · right; exact List.mem_map.mpr ⟨p, h1, hpa⟩

theorem nodup_mkeys_mput {V : Type} {m : List (Int × V)} (k : Int) (v : V)
    (h : (mkeys m).Nodup) : (mkeys (mput m k v)).Nodup := by
  induction m with
  | nil => simp [mput, mkeys]
  | cons p rest ih =>
      obtain ⟨k0, w⟩ := p
      by_cases h0 : k0 = k
      · subst h0
        simpa [mput, mkeys] using h
      · have hstep : mput ((k0, w) :: rest) k v = (k0, w) :: mput rest k v := by
          simp [mput, h0]
        rw [hstep]
        simp only [mkeys, List.map_cons, List.nodup_cons] at h ⊢
        refine ⟨?_, ih h.2⟩
        intro hmem
        rcases mem_mkeys_mput hmem with h1 | h1
        · exact h0 h1
        · exact h.1 h1

/-! ## Data model (`StructureData`) -/

/-- Error payload, from `StructureData.ErrorResponse`. -/
structure ErrorResponse where
  message : String
deriving DecidableEq, Repr

deriving instance DecidableEq for Except

/-- From `StructureData.Author`: identity plus name/bio fields. -/
structure Author where
  id : Int
  firstName : String
  lastName : String
  bio : String
deriving DecidableEq, Repr

/-- From `StructureData.Book` (`Book.go`): the fields read or written by the
modelled operations.  `authorId` stands for `Book.Author.ID`; `price` models the
`float64` price as a rational. -/
structure Book where
  id : Int
  title : String
  authorId : Int
  price : ℚ
  stock : Int
deriving DecidableEq, Repr

/-- From `StructureData.Customer`: the fields read by the modelled operations
(id for resolution, email for `UpdateOrder`'s fallback lookup). -/
structure Customer where
  id : Int
  name : String
  email : String
deriving DecidableEq, Repr

/-- The zero value of the Go `Customer` struct. -/
def zeroCustomer : Customer := ⟨0, "", ""⟩

/-- From `StructureData.OrderItem`: a book reference and a quantity.  The Go
struct embeds a whole `Book`; only its `ID` is read by the modelled code, so the
embedded book is represented by `bookId`. -/
structure OrderItem where
  bookId : Int
  quantity : Int
deriving DecidableEq, Repr

/-- From `StructureData.Order` (`Order.go`). -/
structure Order where
  id : Int
  customer : Customer
  items : List OrderItem
  totalPrice : ℚ
  createdAt : Int
  status : String
deriving DecidableEq, Repr

/-- `StructureData.OrderStatusPending`. -/
def OrderStatusPending : String := "pending"

/-- `StructureData.OrderStatusSuccess`. -/
def OrderStatusSuccess : String := "success"

/-- From `StructureData.TopSellingBook` (declaration not under `src/`; fields
`Book`, `QuantitySold`, `TotalRevenue` are evidenced by their uses in
`orderController.go` and `postgressalesreportstore.go`). -/
structure TopSellingBook where
  book : Book
  quantitySold : Int
  totalRevenue : ℚ
deriving DecidableEq, Repr

/-- From `StructureData.SalesReport` (declaration not under `src/`; fields are
evidenced by `GenerateSalesReport` in `orderController.go` and by the columns
written in `postgressalesreportstore.go`).  Fields omitted from a Go struct
literal take the zero value, hence the explicit zeros where
`GenerateSalesReport` builds its report. -/
structure SalesReport where
  timestamp : Int
  totalRevenue : ℚ
  totalOrders : Int
  successfulOrders : Int
  pendingOrders : Int
  topSellingBooks : List TopSellingBook
deriving DecidableEq, Repr

/-! ## In-memory book store (`InmemoryStores/InmemoryBookStore.go`) -/

/-- `InMemoryBookStore`: the `books` Go map plus the `nextID` counter. -/
structure InMemoryBookStore where
  books : List (Int × Book)
  nextID : Int
deriving DecidableEq, Repr

/-- The initial singleton state built by `GetBookStoreInstance`. -/
def initialBookStore : InMemoryBookStore := { books := [], nextID := 1 }

/-- `InMemoryBookStore.CreateBook`. -/
def CreateBook (store : InMemoryBookStore) (book : Book) :
    InMemoryBookStore × Except ErrorResponse Book :=
  if book.stock < 1 then
    (store, .error ⟨"Book stock must be at least 1"⟩)
  else if book.id ≠ 0 then
    if (mget store.books book.id).isSome then
      (store, .error ⟨"Book ID already exists"⟩)
    else
      ({ books := mput store.books book.id book
         nextID := if book.id ≥ store.nextID then book.id + 1 else store.nextID },
       .ok book)
  else
    ({ books := mput store.books store.nextID { book with id := store.nextID }
       nextID := store.nextID + 1 },
     .ok { book with id := store.nextID })

/-- `InMemoryBookStore.GetBook`. -/
def GetBook (store : InMemoryBookStore) (id : Int) : Except ErrorResponse Book :=
  match mget store.books id with
  | none => .error ⟨"Book not found"⟩
  | some book => .ok book

/-- `InMemoryBookStore.UpdateBook`. -/
def UpdateBook (store : InMemoryBookStore) (id : Int) (book : Book) :
    InMemoryBookStore × Except ErrorResponse Book :=
  match mget store.books id with
  | none => (store, .error ⟨"Book not found"⟩)
  | some _ =>
      let book := { book with id := id }
      ({ store with books := mput store.books id book }, .ok book)

/-- `InMemoryBookStore.DeleteBook`. -/
def DeleteBook (store : InMemoryBookStore) (id : Int) :
    InMemoryBookStore × Option ErrorResponse :=
  match mget store.books id with
  | none => (store, some ⟨"Book not found"⟩)
  | some _ => ({ store with books := mdel store.books id }, none)

/-- `InMemoryBookStore.GetAllBooks` (map iteration order is the model's list
order). -/
def GetAllBooks (store : InMemoryBookStore) : List Book := mvals store.books

/-- `InMemoryBookStore.AddBookDirectly`. -/
def AddBookDirectly (store : InMemoryBookStore) (book : Book) : InMemoryBookStore :=
  { books := mput store.books book.id book
    nextID := if book.id ≥ store.nextID then book.id + 1 else store.nextID }

/-! ## In-memory order / customer / author stores

The Go files implementing `InmemoryStores.GetOrderStoreInstance`,
`GetCustomerStoreInstance` and `GetAuthorStoreInstance` are not under `src/`
(only their callers are), so these repositories are modelled from the spec's
repository contract (§4.1): create inserts under a nonzero carried id if free
(else rejects) or assigns from the cache's monotonic counter; get/update/delete
report `NotFound` for an absent id; update is a full replace with the stored id
authoritative; list returns current contents. -/

/-- In-memory order store state.  Modelled from the spec: §4.1's cache
repository state, a map plus a monotonic id counter. -/
structure MemOrderStore where
  orders : List (Int × Order)
  nextID : Int
deriving DecidableEq, Repr

/-- Modelled from the spec: §4.1 `create(entity)` for the in-memory order
store; the counter stays above every carried id like the in-memory book
store's counter. -/
def memOrderCreate (store : MemOrderStore) (order : Order) :
    MemOrderStore × Except ErrorResponse Order :=
  if order.id ≠ 0 then
    if (mget store.orders order.id).isSome then
      (store, .error ⟨"Order ID already exists"⟩)
    else
      ({ orders := mput store.orders order.id order
         nextID := if order.id ≥ store.nextID then order.id + 1 else store.nextID },
       .ok order)
  else
    ({ orders := mput store.orders store.nextID { order with id := store.nextID }
       nextID := store.nextID + 1 },
     .ok { order with id := store.nextID })

/-- Modelled from the spec: §4.1 `get(id)` for the in-memory order store. -/
def memOrderGet (store : MemOrderStore) (id : Int) : Except ErrorResponse Order :=
  match mget store.orders id with
  | none => .error ⟨"Order not found"⟩
  | some order => .ok order

/-- Modelled from the spec: §4.1 `update(id, entity)` for the in-memory order
store (full replace, stored id authoritative). -/
def memOrderUpdate (store : MemOrderStore) (id : Int) (order : Order) :
    MemOrderStore × Except ErrorResponse Order :=
  match mget store.orders id with
  | none => (store, .error ⟨"Order not found"⟩)
  | some _ =>
      let order := { order with id := id }
      ({ store with orders := mput store.orders id order }, .ok order)

/-- Modelled from the spec: §4.1 `delete(id)` for the in-memory order store. -/
def memOrderDelete (store : MemOrderStore) (id : Int) :
    MemOrderStore × Option ErrorResponse :=
  match mget store.orders id with
  | none => (store, some ⟨"Order not found"⟩)
  | some _ => ({ store with orders := mdel store.orders id }, none)

/-- Modelled from the spec: §4.1 `list()` for the in-memory order store. -/
def memOrderGetAll (store : MemOrderStore) : List Order := mvals store.orders

/-- Modelled from the spec: §4.5 step 2, `GetOrdersInTimeRange` retains the
orders whose creation time falls within `[startTime, endTime]`. -/
def memOrdersInTimeRange (store : MemOrderStore) (startTime endTime : Int) :
    List Order :=
  (memOrderGetAll store).filter fun order =>
    startTime ≤ order.createdAt ∧ order.createdAt ≤ endTime

/-- Modelled from the spec: §4.1 `get(id)` for the in-memory customer store.
On failure Go also returns the zero `Customer{}` value, which
`UpdateOrder` goes on to read, so the zero value is part of the contract. -/
def memCustomerGet (customers : List (Int × Customer)) (id : Int) :
    Customer × Option ErrorResponse :=
  match mget customers id with
  | none => (zeroCustomer, some ⟨"Customer not found"⟩)
  | some c => (c, none)

/-- Modelled from the spec: §4.1 `list()` for the in-memory customer store. -/
def memCustomerGetAll (customers : List (Int × Customer)) : List Customer :=
  mvals customers

/-- Modelled from the spec: §4.1 `update(id, entity)` for the in-memory author
store. -/
def memAuthorUpdate (authors : List (Int × Author)) (id : Int) (author : Author) :
    List (Int × Author) × Except ErrorResponse Author :=
  match mget authors id with
  | none => (authors, .error ⟨"Author not found"⟩)
  | some _ =>
      let author := { author with id := id }
      (mput authors id author, .ok author)

/-- Modelled from the spec: §4.1 `delete(id)` for the in-memory author store. -/
def memAuthorDelete (authors : List (Int × Author)) (id : Int) :
    List (Int × Author) × Option ErrorResponse :=
  match mget authors id with
  | none => (authors, some ⟨"Author not found"⟩)
  | some _ => (mdel authors id, none)

/-! ## PostgreSQL stores (`postgresStores`) -/

/-- PostgreSQL order store state: the `orders` table (each row carrying its
`order_items`) plus the id sequence. -/
structure PgOrderStore where
  orders : List (Int × Order)
  nextID : Int
deriving DecidableEq, Repr

/-- `PostgresOrderStore.CreateOrder`: one transaction inserting the order row
(under its carried id when nonzero, else under the next sequence value) and all
its items.  Inserting an explicitly carried id that already exists violates the
primary key and rolls back. -/
def pgOrderCreate (store : PgOrderStore) (order : Order) :
    PgOrderStore × Except ErrorResponse Order :=
  if order.id ≠ 0 then
    if (mget store.orders order.id).isSome then
      (store, .error ⟨"Failed to insert order: duplicate key"⟩)
    else
      ({ orders := mput store.orders order.id order
         nextID := if order.id ≥ store.nextID then order.id + 1 else store.nextID },
       .ok order)
  else
    ({ orders := mput store.orders store.nextID { order with id := store.nextID }
       nextID := store.nextID + 1 },
     .ok { order with id := store.nextID })

/-- `PostgresOrderStore.UpdateOrder`: one transaction that updates the order
header (an `UPDATE` matching no row is not an error), deletes the old items and
inserts the new ones.  When the order row is absent, inserting an item violates
the `order_items.order_id` foreign key (`schema.sql`) and rolls back; with no
items to insert the transaction commits without storing anything. -/
def pgOrderUpdate (store : PgOrderStore) (id : Int) (order : Order) :
    PgOrderStore × Except ErrorResponse Order :=
  match mget store.orders id with
  | some _ =>
      let order := { order with id := id }
      ({ store with orders := mput store.orders id order }, .ok order)
  | none =>
      if order.items.isEmpty then (store, .ok { order with id := id })
      else (store, .error ⟨"Failed to insert order item: foreign key violation"⟩)

/-- `PostgresOrderStore.DeleteOrder`: deletes the items and the order row;
`rowsAffected == 0` on the order row reports "Order not found". -/
def pgOrderDelete (store : PgOrderStore) (id : Int) :
    PgOrderStore × Option ErrorResponse :=
  match mget store.orders id with
  | none => (store, some ⟨"Order not found"⟩)
  | some _ => ({ store with orders := mdel store.orders id }, none)

/-- `PostgresAuthorStore.UpdateAuthor`: `rowsAffected == 0` reports "Author not
found", otherwise the row is replaced and the id kept. -/
def pgAuthorUpdate (authors : List (Int × Author)) (id : Int) (author : Author) :
    List (Int × Author) × Except ErrorResponse Author :=
  match mget authors id with
  | none => (authors, .error ⟨"Author not found"⟩)
  | some _ =>
      let author := { author with id := id }
      (mput authors id author, .ok author)

/-- `PostgresAuthorStore.DeleteAuthor`: `rowsAffected == 0` reports "Author not
found". -/
def pgAuthorDelete (authors : List (Int × Author)) (id : Int) :
    List (Int × Author) × Option ErrorResponse :=
  match mget authors id with
  | none => (authors, some ⟨"Author not found"⟩)
  | some _ => (mdel authors id, none)

/-- `PostgresBookStore.DeleteBook`: `rowsAffected == 0` reports "Book not
found". -/
def pgBookDelete (books : List (Int × Book)) (id : Int) :
    List (Int × Book) × Option ErrorResponse :=
  match mget books id with
  | none => (books, some ⟨"Book not found"⟩)
  | some _ => (mdel books id, none)

/-! ## Combined system state -/

/-- The stores a controller call can touch: the in-memory (cache) stores and
the PostgreSQL (authoritative) stores. -/
structure SysState where
  memBooks : InMemoryBookStore
  memOrders : MemOrderStore
  memCustomers : List (Int × Customer)
  memAuthors : List (Int × Author)
  pgOrders : PgOrderStore
  pgBooks : List (Int × Book)
  pgAuthors : List (Int × Author)
deriving DecidableEq, Repr

/-! ## Order controller (`Controllers/orderController.go`)

JSON decoding, HTTP status codes, `persistOrdersToFile` and logging are outside
the modelled state; a controller takes the decoded request and returns the new
state and the encoded result. -/

/-- The item-validation loop of `CreateOrder` (lines 193–214) and `UpdateOrder`
(lines 313–333): resolve each book, drop the item when the book is missing or
`quantity > stock || stock == 0`, otherwise decrement the stock, persist the
book and accept the item (with the decremented book snapshot).  A failing
`UpdateBook` makes the controller return "Failed to update book stock"
immediately, which the `Option ErrorResponse` component reports. -/
def processItems (store : InMemoryBookStore) :
    List OrderItem → InMemoryBookStore × List OrderItem × Option ErrorResponse
  | [] => (store, [], none)
  | item :: rest =>
    match GetBook store item.bookId with
    | .error _ => processItems store rest
    | .ok book =>
      if item.quantity > book.stock ∨ book.stock = 0 then
        processItems store rest
      else
        let book := { book with stock := book.stock - item.quantity }
        match UpdateBook store book.id book with
        | (storeNow, .error e) => (storeNow, [], some e)
        | (store1, .ok _) =>
          let (storeF, items, err) := processItems store1 rest
          (storeF, { item with bookId := book.id } :: items, err)

/-- The stock-restore loop of `UpdateOrder` (lines 304–311) and `DeleteOrder`
(lines 392–405): for each item whose book still resolves, add the quantity back
and persist; lookup and update failures are skipped/logged. -/
def restoreItems (store : InMemoryBookStore) : List OrderItem → InMemoryBookStore
  | [] => store
  | item :: rest =>
    match GetBook store item.bookId with
    | .error _ => restoreItems store rest
    | .ok book =>
      let book := { book with stock := book.stock + item.quantity }
      restoreItems (UpdateBook store book.id book).1 rest

/-- Steps of `CreateOrder` up to the store writes: default the status to
"pending", resolve the customer, validate items and adjust stock, reject when
no item survived, stamp `created_at`.  Only the in-memory book store is
touched, so only it is returned. -/
def createOrderValidated (s : SysState) (req : Order) (now : Int) :
    InMemoryBookStore × Except ErrorResponse Order :=
  let order := if req.status = "" then { req with status := OrderStatusPending } else req
  match memCustomerGet s.memCustomers order.customer.id with
  | (_, some _) => (s.memBooks, .error ⟨"Customer does not exist"⟩)
  | (customer, none) =>
    let order := { order with customer := customer }
    match processItems s.memBooks order.items with
    | (books1, _, some _) => (books1, .error ⟨"Failed to update book stock"⟩)
    | (books1, validItems, none) =>
      if validItems.isEmpty then
        (books1, .error ⟨"No valid books available to create the order"⟩)
      else
        (books1, .ok { order with items := validItems, createdAt := now })

/-- `CreateOrder` (lines 165–250): validation, then PostgreSQL create first;
on success the id-synchronized order is created in the in-memory store; if that
fails the PostgreSQL order is deleted again (compensation) and an internal
error is returned. -/
def CreateOrderCtrl (s : SysState) (req : Order) (now : Int) :
    SysState × Except ErrorResponse Order :=
  match createOrderValidated s req now with
  | (books1, .error e) => ({ s with memBooks := books1 }, .error e)
  | (books1, .ok order) =>
    let s1 := { s with memBooks := books1 }
    match pgOrderCreate s1.pgOrders order with
    | (pg1, .error e) => ({ s1 with pgOrders := pg1 }, .error e)
    | (pg1, .ok createdPgOrder) =>
      let s2 := { s1 with pgOrders := pg1 }
      match memOrderCreate s2.memOrders createdPgOrder with
      | (mem1, .error e) =>
          let (pg2, _) := pgOrderDelete s2.pgOrders createdPgOrder.id
          ({ s2 with memOrders := mem1, pgOrders := pg2 }, .error e)
      | (mem1, .ok createdOrder) =>
          ({ s2 with memOrders := mem1 }, .ok createdOrder)

/-- The customer-resolution step of `UpdateOrder` (lines 288–301): resolve by
id; on failure fall back to the first stored customer with the payload
customer's email; reject only when the resulting customer still has id 0. -/
def resolveUpdateCustomer (customers : List (Int × Customer)) (reqCustomer : Customer) :
    Except ErrorResponse Customer :=
  match memCustomerGet customers reqCustomer.id with
  | (c, none) => .ok c
  | (_, some _) =>
    let customer :=
      match (memCustomerGetAll customers).find? (fun ec => ec.email == reqCustomer.email) with
      | some ec => ec
      | none => zeroCustomer
    if customer.id = 0 then .error ⟨"Customer does not exist"⟩ else .ok customer

/-- `UpdateOrder` (lines 254–363): find the order, refuse `success` orders,
resolve the customer (with email fallback), restore the old items' stock,
validate the new items, replace the order in the in-memory store, then attempt
the PostgreSQL update whose failure is only logged. -/
def UpdateOrderCtrl (s : SysState) (id : Int) (req : Order) :
    SysState × Except ErrorResponse Order :=
  match memOrderGet s.memOrders id with
  | .error e => (s, .error e)
  | .ok existingOrder =>
    if existingOrder.status = OrderStatusSuccess then
      (s, .error ⟨"Successful orders cannot be updated"⟩)
    else
      match resolveUpdateCustomer s.memCustomers req.customer with
      | .error e => (s, .error e)
      | .ok customer =>
        let updatedOrder := { req with customer := customer }
        let booksR := restoreItems s.memBooks existingOrder.items
        match processItems booksR updatedOrder.items with
        | (books1, _, some _) =>
            ({ s with memBooks := books1 }, .error ⟨"Failed to update book stock"⟩)
        | (books1, validItems, none) =>
          if validItems.isEmpty then
            ({ s with memBooks := books1 },
             .error ⟨"No valid books available to update the order"⟩)
          else
            let updatedOrder :=
              { updatedOrder with items := validItems, createdAt := existingOrder.createdAt }
            let s1 := { s with memBooks := books1 }
            match memOrderUpdate s1.memOrders id updatedOrder with
            | (mem1, .error e) => ({ s1 with memOrders := mem1 }, .error e)
            | (mem1, .ok updatedOrder2) =>
              let s2 := { s1 with memOrders := mem1 }
              let (pg1, _) := pgOrderUpdate s2.pgOrders id updatedOrder2
              ({ s2 with pgOrders := pg1 }, .ok updatedOrder2)

/-- `DeleteOrder` (lines 366–426): find the order, refuse `success` orders,
restore the items' stock, delete from the in-memory store, then attempt the
PostgreSQL delete whose failure is only logged. -/
def DeleteOrderCtrl (s : SysState) (id : Int) :
    SysState × Except ErrorResponse Unit :=
  match memOrderGet s.memOrders id with
  | .error e => (s, .error e)
  | .ok order =>
    if order.status = OrderStatusSuccess then
      (s, .error ⟨"Successful orders cannot be deleted"⟩)
    else
      let s1 := { s with memBooks := restoreItems s.memBooks order.items }
      match memOrderDelete s1.memOrders id with
      | (mem1, some e) => ({ s1 with memOrders := mem1 }, .error e)
      | (mem1, none) =>
        let s2 := { s1 with memOrders := mem1 }
        let (pg1, _) := pgOrderDelete s2.pgOrders id
        ({ s2 with pgOrders := pg1 }, .ok ())

/-! ## Author controller (`src/unnamed/part_006`) -/

/-- `UpdateAuthor` (part_006 lines 108–154): refuse when any book references
the author, update the in-memory store, then attempt the PostgreSQL update
whose failure is only logged. -/
def UpdateAuthorCtrl (s : SysState) (id : Int) (author : Author) :
    SysState × Except ErrorResponse Author :=
  if (GetAllBooks s.memBooks).any (fun book => book.authorId == id) then
    (s, .error ⟨"Author cannot be updated because it is referenced by existing books"⟩)
  else
    match memAuthorUpdate s.memAuthors id author with
    | (memA, .error e) => ({ s with memAuthors := memA }, .error e)
    | (memA, .ok updatedAuthor) =>
      let s1 := { s with memAuthors := memA }
      let (pgA, _) := pgAuthorUpdate s1.pgAuthors id updatedAuthor
      ({ s1 with pgAuthors := pgA }, .ok updatedAuthor)

/-- First step of `DeleteAuthor` (part_006 line 173): delete the author from
the in-memory store before anything else; a failure returns 404. -/
def deleteAuthorStage1 (s : SysState) (id : Int) : SysState × Option ErrorResponse :=
  match memAuthorDelete s.memAuthors id with
  | (memA, some e) => ({ s with memAuthors := memA }, some e)
  | (memA, none) => ({ s with memAuthors := memA }, none)

/-- Whether any order item references the book (fresh scan of all orders,
part_006 lines 185–197). -/
def bookReferencedByOrder (s : SysState) (bookId : Int) : Bool :=
  (memOrderGetAll s.memOrders).any fun order =>
    order.items.any fun item => item.bookId == bookId

/-- Per-book step of `DeleteAuthor`'s loop (part_006 lines 182–204): a book of
this author that no order references is deleted from both book stores (both
delete results are discarded). -/
def processAuthorBook (id : Int) (s : SysState) (book : Book) : SysState :=
  if book.authorId = id then
    if bookReferencedByOrder s book.id then s
    else
      let (memB, _) := DeleteBook s.memBooks book.id
      let (pgB, _) := pgBookDelete s.pgBooks book.id
      { s with memBooks := memB, pgBooks := pgB }
  else s

/-- The book-processing loop of `DeleteAuthor` over the snapshot of all books
taken after the cache-side author delete. -/
def deleteAuthorLoop (id : Int) (s : SysState) (books : List Book) : SysState :=
  books.foldl (processAuthorBook id) s

/-- `DeleteAuthor` (part_006 lines 156–213): cache author delete first, then
the per-book loop, then the PostgreSQL author delete whose failure is only
logged. -/
def DeleteAuthorCtrl (s : SysState) (id : Int) : SysState × Except ErrorResponse Unit :=
  match deleteAuthorStage1 s id with
  | (s1, some e) => (s1, .error e)
  | (s1, none) =>
    let s2 := deleteAuthorLoop id s1 (GetAllBooks s1.memBooks)
    let (pgA, _) := pgAuthorDelete s2.pgAuthors id
    ({ s2 with pgAuthors := pgA }, .ok ())

/-! ## Sales aggregation (`GenerateSalesReport`, lines 458–535)

The cancellable `context.Context` is modelled as never cancelled (the claims
concern the completed computation).  `bookSales` is a Go map iterated with
unspecified order when the `topSellingBooks` slice is built, so the slice
construction takes the iteration order as an explicit parameter `iter`; the
accumulation map itself (`mput` appends fresh keys) records the keys in
insertion order. -/

/-- One item of one retained order (lines 493–512): resolve the book freshly;
skip when absent; create the accumulator entry with `QuantitySold: 0` on first
sight (the `TotalRevenue` field is never assigned and keeps its zero value),
then add the item quantity. -/
def addItemSale (books : InMemoryBookStore) (sales : List (Int × TopSellingBook))
    (item : OrderItem) : List (Int × TopSellingBook) :=
  match GetBook books item.bookId with
  | .error _ => sales
  | .ok book =>
    let sales :=
      match mget sales book.id with
      | none => mput sales book.id { book := book, quantitySold := 0, totalRevenue := 0 }
      | some _ => sales
    match mget sales book.id with
    | none => sales
    | some tsb =>
        mput sales book.id { tsb with quantitySold := tsb.quantitySold + item.quantity }

/-- Accumulate one retained order's items into the `bookSales` map. -/
def accumOrderSales (books : InMemoryBookStore)
    (sales : List (Int × TopSellingBook)) (order : Order) :
    List (Int × TopSellingBook) :=
  order.items.foldl (addItemSale books) sales

/-- The whole `bookSales` accumulation over the retained orders. -/
def bookSalesMap (books : InMemoryBookStore) (orders : List Order) :
    List (Int × TopSellingBook) :=
  orders.foldl (accumOrderSales books) []

/-- The revenue the sort comparator computes for an accumulator entry:
`Book.Price * float64(QuantitySold)` (line 519).  The integer quantity is
turned into a rational with `mkRat` (kernel-computable, equal to the cast). -/
def tsbRevenue (t : TopSellingBook) : ℚ := t.book.price * mkRat t.quantitySold 1

/-- Entry `a` may precede entry `b` exactly when the comparator
`revenue i > revenue j` does not demand the opposite order. -/
def tsbBefore (a b : TopSellingBook) : Prop := tsbRevenue b ≤ tsbRevenue a

instance : DecidableRel tsbBefore :=
  fun a b => inferInstanceAs (Decidable (tsbRevenue b ≤ tsbRevenue a))

instance : IsTotal TopSellingBook tsbBefore :=
  ⟨fun a b => le_total (tsbRevenue b) (tsbRevenue a)⟩

instance : IsTrans TopSellingBook tsbBefore :=
  ⟨fun _ _ _ hab hbc => le_trans hbc hab⟩

/-- `sort.Slice(topSellingBooks, less)` with `less i j := revenue i > revenue j`
(lines 518–522), modelled by a comparison sort meeting `sort.Slice`'s contract:
the result is a permutation of the input ordered by the comparator.  Go's
`sort.Slice` is documented as not stable, so no tie order is promised; theorems
about tie order treat the input (map iteration) order as adversarial. -/
def sortTopSelling (l : List TopSellingBook) : List TopSellingBook :=
  List.insertionSort tsbBefore l

/-- Building the `topSellingBooks` slice from the `bookSales` map in the given
iteration order (lines 514–517). -/
def collectTopSelling (sales : List (Int × TopSellingBook)) (iter : List Int) :
    List TopSellingBook :=
  iter.filterMap (mget sales)

/-- `GenerateSalesReport` (lines 458–535): the trailing-24-hour window of
orders, revenue/count accumulation, per-book accumulation, descending-revenue
sort, cap at 5.  The report literal (lines 469–474 and 526–531) omits the
`SuccessfulOrders`/`PendingOrders` fields, which therefore keep the Go zero
value. -/
def GenerateSalesReport (s : SysState) (now : Int) (iter : List Int) : SalesReport :=
  let endTime := now
  let startTime := endTime - 24
  let orders := memOrdersInTimeRange s.memOrders startTime endTime
  if orders.isEmpty then
    { timestamp := endTime, totalRevenue := 0, totalOrders := 0,
      successfulOrders := 0, pendingOrders := 0, topSellingBooks := [] }
  else
    let totalRevenue := orders.foldl (fun acc order => acc + order.totalPrice) (0 : ℚ)
    let totalOrders := orders.foldl (fun acc _ => acc + 1) (0 : Int)
    let sales := bookSalesMap s.memBooks orders
    let sorted := sortTopSelling (collectTopSelling sales iter)
    let topSellingBooks := if sorted.length > 5 then sorted.take 5 else sorted
    { timestamp := endTime, totalRevenue := totalRevenue, totalOrders := totalOrders,
      successfulOrders := 0, pendingOrders := 0, topSellingBooks := topSellingBooks }

/-- The `sales_reports` row `PostgresSalesReportStore.SaveSalesReport`
(lines 50–61 of `postgressalesreportstore.go`) inserts for a report: the five
header columns are copied verbatim from the report. -/
structure SalesReportRow where
  timestamp : Int
  totalRevenue : ℚ
  totalOrders : Int
  successfulOrders : Int
  pendingOrders : Int
deriving DecidableEq, Repr

/-- The header row written by `SaveSalesReport`. -/
def SaveSalesReportRow (report : SalesReport) : SalesReportRow :=
  { timestamp := report.timestamp, totalRevenue := report.totalRevenue,
    totalOrders := report.totalOrders, successfulOrders := report.successfulOrders,
    pendingOrders := report.pendingOrders }

/-! ## Reachable in-memory book store states (claim C10) -/

/-- The operations claim C10 quantifies over. -/
inductive BookStoreOp where
  | create (book : Book)
  | addDirectly (book : Book)
deriving Repr

/-- Apply one store operation (the result/error of `CreateBook` is not part of
the stored state). -/
def applyBookStoreOp (store : InMemoryBookStore) : BookStoreOp → InMemoryBookStore
  | .create book => (CreateBook store book).1
  | .addDirectly book => AddBookDirectly store book

/-- The store state after a sequence of operations on the fresh singleton. -/
def runBookStoreOps (ops : List BookStoreOp) : InMemoryBookStore :=
  ops.foldl applyBookStoreOp initialBookStore

/-- Keys strictly below the `nextID` counter. -/
def KeysBelowNext (store : InMemoryBookStore) : Prop :=
  ∀ k ∈ mkeys store.books, k < store.nextID

theorem mget_none_of_not_mem_mkeys {V : Type} {m : List (Int × V)} {k : Int}
    (h : k ∉ mkeys m) : mget m k = none := by
  induction m with
  | nil => rfl
  | cons p rest ih =>
      obtain ⟨k0, w⟩ := p
      simp only [mkeys, List.map_cons, List.mem_cons, not_or] at h
      have h0 : k0 ≠ k := fun hh => h.1 hh.symm
      simp only [mget, if_neg h0]
      exact ih h.2

theorem keysBelowNext_mput {store : InMemoryBookStore} {k : Int} {b : Book}
    {next : Int} (h : KeysBelowNext store)
    (hk : k < next) (hmono : store.nextID ≤ next) :
    KeysBelowNext { books := mput store.books k b, nextID := next } := by
  intro a ha
  rcases mem_mkeys_mput ha with h1 | h1
  · exact h1 ▸ hk
  · exact lt_of_lt_of_le (h a h1) hmono

theorem CreateBook_inv (store : InMemoryBookStore) (book : Book)
    (hn : (mkeys store.books).Nodup) (hb : KeysBelowNext store) :
    (mkeys (CreateBook store book).1.books).Nodup ∧
      KeysBelowNext (CreateBook store book).1 := by
  unfold CreateBook
  split_ifs with h1 h2 h3 h4
  · exact ⟨hn, hb⟩
  · exact ⟨hn, hb⟩
  · exact ⟨nodup_mkeys_mput _ _ hn, keysBelowNext_mput hb (by omega) (by omega)⟩
  · exact ⟨nodup_mkeys_mput _ _ hn, keysBelowNext_mput hb (by omega) (by omega)⟩
  · exact ⟨nodup_mkeys_mput _ _ hn, keysBelowNext_mput hb (by omega) (by omega)⟩

theorem AddBookDirectly_inv (store : InMemoryBookStore) (book : Book)
    (hn : (mkeys store.books).Nodup) (hb : KeysBelowNext store) :
    (mkeys (AddBookDirectly store book).books).Nodup ∧
      KeysBelowNext (AddBookDirectly store book) := by
  unfold AddBookDirectly
  split_ifs with h1
  · exact ⟨nodup_mkeys_mput _ _ hn, keysBelowNext_mput hb (by omega) (by omega)⟩
  · exact ⟨nodup_mkeys_mput _ _ hn, keysBelowNext_mput hb (by omega) (by omega)⟩

theorem applyBookStoreOp_inv (store : InMemoryBookStore) (op : BookStoreOp)
    (hn : (mkeys store.books).Nodup) (hb : KeysBelowNext store) :
    (mkeys (applyBookStoreOp store op).books).Nodup ∧
      KeysBelowNext (applyBookStoreOp store op) := by
  cases op with
  | create book => exact CreateBook_inv store book hn hb
  | addDirectly book => exact AddBookDirectly_inv store book hn hb

theorem runBookStoreOps_inv (ops : List BookStoreOp) :
    (mkeys (runBookStoreOps ops).books).Nodup ∧ KeysBelowNext (runBookStoreOps ops) := by
  suffices h : ∀ store : InMemoryBookStore,
      (mkeys store.books).Nodup → KeysBelowNext store →
      (mkeys (ops.foldl applyBookStoreOp store).books).Nodup ∧
        KeysBelowNext (ops.foldl applyBookStoreOp store) by
    refine h initialBookStore (by simp [initialBookStore, mkeys]) ?_
    intro k hk
    simp [initialBookStore, mkeys] at hk
  induction ops with
  | nil => exact fun store hn hb => ⟨hn, hb⟩
  | cons op rest ih =>
      intro store hn hb
      have h1 := applyBookStoreOp_inv store op hn hb
      exact ih _ h1.1 h1.2

/-- C10: in the in-memory book store, after any sequence of `CreateBook` and
`AddBookDirectly` operations starting from the fresh singleton store, the
stored book ids are pairwise distinct and the `nextID` counter is strictly
greater than every stored id; consequently `CreateBook` on a book carrying
id 0 (with valid stock) assigns the fresh id `nextID`, under which no book is
stored, and leaves every previously stored book unchanged. -/
theorem C10_book_ids_unique_and_fresh (ops : List BookStoreOp) :
    (mkeys (runBookStoreOps ops).books).Nodup ∧
    (∀ k ∈ mkeys (runBookStoreOps ops).books, k < (runBookStoreOps ops).nextID) ∧
    (∀ book : Book, book.id = 0 → ¬ book.stock < 1 →
      mget (runBookStoreOps ops).books (runBookStoreOps ops).nextID = none ∧
      (CreateBook (runBookStoreOps ops) book).2 =
        .ok { book with id := (runBookStoreOps ops).nextID } ∧
      ∀ k ∈ mkeys (runBookStoreOps ops).books,
        mget (CreateBook (runBookStoreOps ops) book).1.books k =
          mget (runBookStoreOps ops).books k) := by
  obtain ⟨hn, hb⟩ := runBookStoreOps_inv ops
  refine ⟨hn, hb, ?_⟩
  intro book hid hst
  have hfresh : (runBookStoreOps ops).nextID ∉ mkeys (runBookStoreOps ops).books := by
    intro hmem
    exact absurd (hb _ hmem) (lt_irrefl _)
  have hnone := mget_none_of_not_mem_mkeys hfresh
  have hne : book.id ≠ 0 ↔ False := by simp [hid]
  refine ⟨hnone, ?_, ?_⟩
  · simp [CreateBook, hst, hid]
  · intro k hk
    have hklt := hb k hk
    have hkne : k ≠ (runBookStoreOps ops).nextID := by omega
    have hC : (CreateBook (runBookStoreOps ops) book).1.books =
        mput (runBookStoreOps ops).books (runBookStoreOps ops).nextID
          { book with id := (runBookStoreOps ops).nextID } := by
      simp [CreateBook, hst, hid]
    rw [hC]
    exact mget_mput_ne _ _ _ _ hkne

/-- Concrete instantiation data for the C10 witness. -/
def c10ops : List BookStoreOp :=
  [BookStoreOp.create { id := 5, title := "a", authorId := 1, price := 10, stock := 2 },
   BookStoreOp.addDirectly { id := 2, title := "b", authorId := 1, price := 3, stock := 4 },
   BookStoreOp.create { id := 0, title := "c", authorId := 1, price := 1, stock := 7 }]

/-- Concrete book carrying id 0 for the C10 witness. -/
def c10book : Book := { id := 0, title := "d", authorId := 2, price := 2, stock := 1 }

/-- Witness for C10 at a concrete operation sequence and request book. -/
theorem C10_book_ids_unique_and_fresh_witness :
    (mkeys (runBookStoreOps c10ops).books).Nodup ∧
    (∀ k ∈ mkeys (runBookStoreOps c10ops).books, k < (runBookStoreOps c10ops).nextID) ∧
    (mget (runBookStoreOps c10ops).books (runBookStoreOps c10ops).nextID = none ∧
     (CreateBook (runBookStoreOps c10ops) c10book).2 =
       .ok { c10book with id := (runBookStoreOps c10ops).nextID } ∧
     ∀ k ∈ mkeys (runBookStoreOps c10ops).books,
       mget (CreateBook (runBookStoreOps c10ops) c10book).1.books k =
         mget (runBookStoreOps c10ops).books k) :=
  ⟨(C10_book_ids_unique_and_fresh c10ops).1,
   (C10_book_ids_unique_and_fresh c10ops).2.1,
   (C10_book_ids_unique_and_fresh c10ops).2.2 c10book (by decide) (by decide)⟩

/-! ## Claim C8: sales aggregation totals -/

theorem foldl_add_one_eq_length (l : List Order) :
    ∀ n : Int, l.foldl (fun acc _ => acc + 1) n = n + l.length := by
  induction l with
  | nil => intro n; simp
  | cons o rest ih =>
      intro n
      rw [List.foldl_cons, ih (n + 1)]
      simp [List.length_cons]
      omega

theorem foldl_add_totalPrice_eq_sum (l : List Order) :
    ∀ q : ℚ, l.foldl (fun acc order => acc + order.totalPrice) q =
      q + (l.map Order.totalPrice).sum := by
  induction l with
  | nil => intro q; simp
  | cons o rest ih =>
      intro q
      rw [List.foldl_cons, ih (q + o.totalPrice)]
      simp [List.map_cons, List.sum_cons]
      ring

/-- C8 (amended): sales aggregation computes `totalOrders` as the number of
retained orders and `totalRevenue` as the sum of their total prices, but it
does not split the retained orders by status: the report's
`successfulOrders`/`pendingOrders` fields are never assigned, so the generated
report — and the `sales_reports` row `SaveSalesReport` persists from it —
always carries 0 in both per-status counters. -/
theorem C8_sales_totals_no_status_split (s : SysState) (now : Int) (iter : List Int) :
    (GenerateSalesReport s now iter).totalOrders =
      (memOrdersInTimeRange s.memOrders (now - 24) now).length ∧
    (GenerateSalesReport s now iter).totalRevenue =
      ((memOrdersInTimeRange s.memOrders (now - 24) now).map Order.totalPrice).sum ∧
    (GenerateSalesReport s now iter).successfulOrders = 0 ∧
    (GenerateSalesReport s now iter).pendingOrders = 0 ∧
    (SaveSalesReportRow (GenerateSalesReport s now iter)).successfulOrders = 0 ∧
    (SaveSalesReportRow (GenerateSalesReport s now iter)).pendingOrders = 0 := by
  by_cases hemp : (memOrdersInTimeRange s.memOrders (now - 24) now).isEmpty
  · have h0 : memOrdersInTimeRange s.memOrders (now - 24) now = [] :=
      List.isEmpty_iff.mp hemp
    simp [GenerateSalesReport, h0, SaveSalesReportRow]
  · simp only [GenerateSalesReport]
    rw [if_neg hemp]
    refine ⟨?_, ?_, rfl, rfl, rfl, rfl⟩
    · show (memOrdersInTimeRange s.memOrders (now - 24) now).foldl
        (fun acc _ => acc + 1) (0 : Int) = _
      rw [foldl_add_one_eq_length]
      omega
    · show (memOrdersInTimeRange s.memOrders (now - 24) now).foldl
        (fun acc order => acc + order.totalPrice) (0 : ℚ) = _
      rw [foldl_add_totalPrice_eq_sum]
      ring

/-- First order of the C8 counterexample state: a `success` and a `pending`
order both inside the 24-hour window ending at time 100. -/
def c8order1 : Order :=
  { id := 1, customer := ⟨7, "n", "e"⟩, items := [⟨1, 1⟩],
    totalPrice := 10, createdAt := 90, status := "success" }

/-- Second order of the C8 counterexample state. -/
def c8order2 : Order :=
  { id := 2, customer := ⟨7, "n", "e"⟩, items := [⟨1, 2⟩],
    totalPrice := 20, createdAt := 95, status := "pending" }

/-- The C8 counterexample state itself. -/
def c8state : SysState :=
  { memBooks := { books := [(1, { id := 1, title := "A", authorId := 1,
                                  price := 10, stock := 5 })], nextID := 2 }
    memOrders := { orders := [(1, c8order1), (2, c8order2)], nextID := 3 }
    memCustomers := [(7, ⟨7, "n", "e"⟩)]
    memAuthors := []
    pgOrders := { orders := [], nextID := 1 }
    pgBooks := []
    pgAuthors := [] }

/-- C8 counterexample: at `c8state` the retained window holds exactly one
`success` and one `pending` order, yet the generated report and its persisted
row both carry 0 for `successfulOrders` and `pendingOrders`, not the per-status
counts the claim asserts. -/
theorem C8_counterexample :
    ((memOrdersInTimeRange c8state.memOrders (100 - 24) 100).countP
        (fun o => o.status == OrderStatusSuccess) = 1) ∧
    ((memOrdersInTimeRange c8state.memOrders (100 - 24) 100).countP
        (fun o => o.status == OrderStatusPending) = 1) ∧
    (GenerateSalesReport c8state 100 [1]).successfulOrders = 0 ∧
    (GenerateSalesReport c8state 100 [1]).pendingOrders = 0 ∧
    (SaveSalesReportRow (GenerateSalesReport c8state 100 [1])).successfulOrders = 0 ∧
    (SaveSalesReportRow (GenerateSalesReport c8state 100 [1])).pendingOrders = 0 := by
  decide

/-! ## Claim C9: top-selling-books ordering -/

/-- The top-selling list the C9 claim describes, built following the spec's
words: the per-book accumulator entries in insertion order (which is exactly
the accumulator map's list order, since `mput` appends fresh keys), stably
sorted by descending revenue (`List.insertionSort` is stable), capped at 5. -/
def specTopSellingStable (s : SysState) (now : Int) : List TopSellingBook :=
  (sortTopSelling
    (mvals (bookSalesMap s.memBooks
      (memOrdersInTimeRange s.memOrders (now - 24) now)))).take 5

/-- C9 (amended): the top-selling-books list of a generated sales report is
sorted in non-increasing order of revenue (price × quantity sold) and contains
at most 5 entries — for every map iteration order.  No tie order is promised:
the slice is built from a Go map in unspecified iteration order and sorted with
the unstable `sort.Slice`, so equal-revenue entries may appear in any order
(see the counterexample). -/
theorem C9_top_selling_sorted_capped (s : SysState) (now : Int) (iter : List Int) :
    (GenerateSalesReport s now iter).topSellingBooks.Pairwise tsbBefore ∧
    (GenerateSalesReport s now iter).topSellingBooks.length ≤ 5 := by
  simp only [GenerateSalesReport]
  by_cases hemp : (memOrdersInTimeRange s.memOrders (now - 24) now).isEmpty
  · rw [if_pos hemp]
    exact ⟨List.Pairwise.nil, by simp⟩
  · rw [if_neg hemp]
    have hsorted : (sortTopSelling (collectTopSelling
        (bookSalesMap s.memBooks (memOrdersInTimeRange s.memOrders (now - 24) now))
        iter)).Pairwise tsbBefore :=
      List.sorted_insertionSort tsbBefore _
    by_cases hlen : (sortTopSelling (collectTopSelling
        (bookSalesMap s.memBooks (memOrdersInTimeRange s.memOrders (now - 24) now))
        iter)).length > 5
    · refine ⟨?_, ?_⟩ <;> rw [if_pos hlen]
      · exact hsorted.sublist (List.take_sublist _ _)
      · exact List.length_take_le 5 _
    · refine ⟨?_, ?_⟩ <;> rw [if_neg hlen]
      · exact hsorted
      · exact le_of_not_lt hlen

/-- Orders for the C9 counterexample: two equal-revenue books bought once each
inside the window. -/
def c9order1 : Order :=
  { id := 1, customer := ⟨7, "n", "e"⟩, items := [⟨1, 1⟩],
    totalPrice := 10, createdAt := 90, status := "pending" }

/-- Second order of the C9 counterexample. -/
def c9order2 : Order :=
  { id := 2, customer := ⟨7, "n", "e"⟩, items := [⟨2, 1⟩],
    totalPrice := 10, createdAt := 95, status := "pending" }

/-- First book of the C9 counterexample state: books 1 and 2 have the same
price, so their accumulated revenues tie. -/
def c9book1 : Book := { id := 1, title := "A", authorId := 1, price := 10, stock := 5 }

/-- Second book of the C9 counterexample (same price as the first). -/
def c9book2 : Book := { id := 2, title := "B", authorId := 1, price := 10, stock := 5 }

/-- The C9 counterexample state (continued). -/
def c9state : SysState :=
  { memBooks := { books := [(1, c9book1), (2, c9book2)], nextID := 3 }
    memOrders := { orders := [(1, c9order1), (2, c9order2)], nextID := 3 }
    memCustomers := [(7, ⟨7, "n", "e"⟩)]
    memAuthors := []
    pgOrders := { orders := [], nextID := 1 }
    pgBooks := []
    pgAuthors := [] }

/-- C9 counterexample: `[2, 1]` is a legitimate iteration order of the
accumulator map (a permutation of its keys, whose insertion order is `[1, 2]`),
yet the report generated under it differs from the stable-by-insertion-order
list the claim prescribes: the equal-revenue books come out in iteration
order, not insertion order. -/
theorem C9_counterexample :
    ([2, 1].Perm (mkeys (bookSalesMap c9state.memBooks
        (memOrdersInTimeRange c9state.memOrders (100 - 24) 100)))) ∧
    mkeys (bookSalesMap c9state.memBooks
        (memOrdersInTimeRange c9state.memOrders (100 - 24) 100)) = [1, 2] ∧
    (GenerateSalesReport c9state 100 [2, 1]).topSellingBooks ≠
      specTopSellingStable c9state 100 := by
  with_unfolding_all decide

/-! ## Claim C7: UpdateOrder customer resolution -/

theorem resolveUpdateCustomer_error_iff (customers : List (Int × Customer))
    (reqc : Customer) (hcz : ∀ p ∈ customers, (p.2 : Customer).id ≠ 0) :
    (resolveUpdateCustomer customers reqc = .error ⟨"Customer does not exist"⟩) ↔
      (mget customers reqc.id = none ∧
       ∀ c ∈ memCustomerGetAll customers, c.email ≠ reqc.email) := by
  unfold resolveUpdateCustomer memCustomerGet
  cases hg : mget customers reqc.id with
  | some c => simp [hg]
  | none =>
    simp only [hg]
    cases hf : (memCustomerGetAll customers).find? (fun ec => ec.email == reqc.email) with
    | some ec =>
        have hmem : ec ∈ memCustomerGetAll customers := List.mem_of_find?_eq_some hf
        have hpred := List.find?_some hf
        have hid : ec.id ≠ 0 := by
          rcases List.mem_map.mp hmem with ⟨p, hp, hpe⟩
          exact hpe ▸ hcz p hp
        constructor
        · intro h
          exfalso
          simp [hf, hid] at h
        · rintro ⟨-, hall⟩
          exact absurd (by simpa using hpred) (hall ec hmem)
    | none =>
        constructor
        · intro _
          refine ⟨by simp [hg], ?_⟩
          intro c hc hceq
          have hne := List.find?_eq_none.mp hf c hc
          simp [hceq] at hne
        · intro _
          simp [hf, zeroCustomer]

theorem UpdateOrderCtrl_customer_reject (s : SysState) (id : Int) (req : Order)
    (existingOrder : Order) (e : ErrorResponse)
    (hget : memOrderGet s.memOrders id = .ok existingOrder)
    (hst : ¬ existingOrder.status = OrderStatusSuccess)
    (hres : resolveUpdateCustomer s.memCustomers req.customer = .error e) :
    UpdateOrderCtrl s id req = (s, .error e) := by
  unfold UpdateOrderCtrl
  rw [hget]
  simp only [hst, if_false, hres, Bool.false_eq_true]

theorem memOrderUpdate_error_eq (store : MemOrderStore) (id : Int) (o : Order)
    (st2 : MemOrderStore) (e : ErrorResponse)
    (h : memOrderUpdate store id o = (st2, .error e)) :
    e = ⟨"Order not found"⟩ ∧ st2 = store := by
  unfold memOrderUpdate at h
  cases hg : mget store.orders id with
  | none =>
      rw [hg] at h
      obtain ⟨h1, h2⟩ := Prod.mk.injEq .. ▸ h
      exact ⟨(by injection h2.symm), h1.symm⟩
  | some _ =>
      rw [hg] at h
      simp at h

theorem UpdateOrderCtrl_no_customer_error (s : SysState) (id : Int) (req : Order)
    (existingOrder : Order) (customer : Customer)
    (hget : memOrderGet s.memOrders id = .ok existingOrder)
    (hst : ¬ existingOrder.status = OrderStatusSuccess)
    (hres : resolveUpdateCustomer s.memCustomers req.customer = .ok customer) :
    (UpdateOrderCtrl s id req).2 ≠ .error ⟨"Customer does not exist"⟩ := by
  unfold UpdateOrderCtrl
  rw [hget]
  simp only [hst, if_false, hres, Bool.false_eq_true]
  split
  · simp
  · split
    · simp
    · split
      · rename_i mem1 e heq
        obtain ⟨he, -⟩ := memOrderUpdate_error_eq _ _ _ _ _ heq
        subst he
        simp
      · simp

theorem resolveUpdateCustomer_error_msg (customers : List (Int × Customer))
    (reqc : Customer) (e : ErrorResponse)
    (h : resolveUpdateCustomer customers reqc = .error e) :
    e = ⟨"Customer does not exist"⟩ := by
  unfold resolveUpdateCustomer memCustomerGet at h
  cases hg : mget customers reqc.id with
  | some c =>
      rw [hg] at h
      simp at h
  | none =>
      rw [hg] at h
      cases hfind : (memCustomerGetAll customers).find?
          (fun ec => ec.email == reqc.email) with
      | none =>
          simp only [hfind] at h
          simp [zeroCustomer] at h
          exact h.symm
      | some ec =>
          simp only [hfind] at h
          by_cases hz : ec.id = 0
          · simp only [hz, if_pos] at h
            injection h with h1
            exact h1.symm
          · simp [hz] at h

/-- Result-kind discriminator used in concrete statements. -/
def exceptIsOk {A : Type} : Except ErrorResponse A → Bool
  | .ok _ => true
  | .error _ => false

/-- C7 (amended): in `UpdateOrder`, after the existing order is found and is
not `success`, the update is rejected for an unresolvable customer exactly when
no customer is stored under the payload customer's id AND no stored customer's
email equals the payload customer's email (stored customers carry nonzero
ids); when both lookups fail the controller returns the rejection with the
state unchanged.  An absent id alone does not reject: the code falls back to an
email lookup. -/
theorem C7_update_order_customer_fallback (s : SysState) (id : Int) (req : Order)
    (existingOrder : Order)
    (hget : memOrderGet s.memOrders id = .ok existingOrder)
    (hst : ¬ existingOrder.status = OrderStatusSuccess)
    (hcz : ∀ p ∈ s.memCustomers, (p.2 : Customer).id ≠ 0) :
    ((UpdateOrderCtrl s id req).2 = .error ⟨"Customer does not exist"⟩ ↔
      (mget s.memCustomers req.customer.id = none ∧
       ∀ c ∈ memCustomerGetAll s.memCustomers, c.email ≠ req.customer.email)) ∧
    ((mget s.memCustomers req.customer.id = none ∧
      ∀ c ∈ memCustomerGetAll s.memCustomers, c.email ≠ req.customer.email) →
      UpdateOrderCtrl s id req = (s, .error ⟨"Customer does not exist"⟩)) := by
  have hiff := resolveUpdateCustomer_error_iff s.memCustomers req.customer hcz
  constructor
  · constructor
    · intro h
      cases hres : resolveUpdateCustomer s.memCustomers req.customer with
      | error e =>
          have he := resolveUpdateCustomer_error_msg s.memCustomers req.customer e hres
          exact hiff.mp (he ▸ hres)
      | ok customer =>
          exact absurd h (UpdateOrderCtrl_no_customer_error s id req
            existingOrder customer hget hst hres)
    · intro h
      have hres := hiff.mpr h
      rw [UpdateOrderCtrl_customer_reject s id req existingOrder _ hget hst hres]
  · intro h
    exact UpdateOrderCtrl_customer_reject s id req existingOrder _ hget hst (hiff.mpr h)

/-- The stored customer for the C7 instances. -/
def c7customer : Customer := { id := 7, name := "n", email := "x@y" }

/-- The pre-existing pending order for the C7 instances. -/
def c7order : Order :=
  { id := 1, customer := c7customer, items := [⟨1, 1⟩],
    totalPrice := 10, createdAt := 0, status := "pending" }

/-- State for the C7 instances: one customer (id 7), one pending order, one
in-stock book. -/
def c7state : SysState :=
  { memBooks := { books := [(1, { id := 1, title := "A", authorId := 1,
                                  price := 10, stock := 5 })], nextID := 2 }
    memOrders := { orders := [(1, c7order)], nextID := 2 }
    memCustomers := [(7, c7customer)]
    memAuthors := []
    pgOrders := { orders := [(1, c7order)], nextID := 2 }
    pgBooks := []
    pgAuthors := [] }

/-- Update request whose customer id (99) matches no stored customer but whose
email matches customer 7. -/
def c7req : Order :=
  { id := 1, customer := { id := 99, name := "", email := "x@y" },
    items := [⟨1, 1⟩], totalPrice := 10, createdAt := 0, status := "pending" }

/-- C7 counterexample: no stored customer has id 99, yet `UpdateOrder` is not
rejected — the email fallback resolves customer 7 and the update succeeds. -/
theorem C7_counterexample :
    mget c7state.memCustomers 99 = none ∧
    (∀ p ∈ c7state.memCustomers, (p.2 : Customer).id ≠ 99) ∧
    exceptIsOk (UpdateOrderCtrl c7state 1 c7req).2 = true := by
  decide

/-- Update request for the C7 witness: neither the id nor the email of any
stored customer matches. -/
def c7reqW : Order :=
  { id := 1, customer := { id := 99, name := "", email := "nobody@z" },
    items := [⟨1, 1⟩], totalPrice := 10, createdAt := 0, status := "pending" }

/-- Witness for C7 at a concrete state and request. -/
theorem C7_update_order_customer_fallback_witness :
    ((UpdateOrderCtrl c7state 1 c7reqW).2 = .error ⟨"Customer does not exist"⟩ ↔
      (mget c7state.memCustomers c7reqW.customer.id = none ∧
       ∀ c ∈ memCustomerGetAll c7state.memCustomers,
         c.email ≠ c7reqW.customer.email)) ∧
    ((mget c7state.memCustomers c7reqW.customer.id = none ∧
      ∀ c ∈ memCustomerGetAll c7state.memCustomers,
        c.email ≠ c7reqW.customer.email) →
      UpdateOrderCtrl c7state 1 c7reqW = (c7state, .error ⟨"Customer does not exist"⟩)) :=
  C7_update_order_customer_fallback c7state 1 c7reqW c7order (by decide)
    (by decide) (by decide)

/-! ## Claim C4: CreateOrder compensation on cache failure -/

theorem pgOrderCreate_ok_orders (st : PgOrderStore) (o o2 : Order)
    (st2 : PgOrderStore) (h : pgOrderCreate st o = (st2, .ok o2)) :
    st2.orders = mput st.orders o2.id o2 := by
  unfold pgOrderCreate at h
  split at h
  · split at h
    · exact absurd (Prod.mk.injEq .. ▸ h).2 (by simp)
    · obtain ⟨h1, h2⟩ := Prod.mk.injEq .. ▸ h
      have ho : o = o2 := by injection h2
      rw [← h1, ← ho]
  · obtain ⟨h1, h2⟩ := Prod.mk.injEq .. ▸ h
    have ho : { o with id := st.nextID } = o2 := by injection h2
    rw [← h1, ← ho]

theorem memOrderCreate_error_state (st : MemOrderStore) (o : Order)
    (st2 : MemOrderStore) (e : ErrorResponse)
    (h : memOrderCreate st o = (st2, .error e)) : st2 = st := by
  unfold memOrderCreate at h
  split at h
  · split at h
    · exact ((Prod.mk.injEq .. ▸ h).1).symm
    · exact absurd (Prod.mk.injEq .. ▸ h).2 (by simp)
  · exact absurd (Prod.mk.injEq .. ▸ h).2 (by simp)

/-- C4: in `CreateOrder`, when the authoritative create succeeded and the
subsequent cache-side create fails, the just-created authoritative order is
deleted as compensation and the cache error is returned as an internal error;
afterwards no order is stored under the created id in PostgreSQL and the
in-memory order store is exactly as before the call — the order exists in
neither store. -/
theorem C4_create_order_compensation (s : SysState) (req : Order) (now : Int)
    (books1 : InMemoryBookStore) (order : Order) (pg1 : PgOrderStore)
    (pgo : Order) (mem1 : MemOrderStore) (e : ErrorResponse)
    (hval : createOrderValidated s req now = (books1, .ok order))
    (hpg : pgOrderCreate s.pgOrders order = (pg1, .ok pgo))
    (hmem : memOrderCreate s.memOrders pgo = (mem1, .error e)) :
    (CreateOrderCtrl s req now).2 = .error e ∧
    mget (CreateOrderCtrl s req now).1.pgOrders.orders pgo.id = none ∧
    (CreateOrderCtrl s req now).1.memOrders = s.memOrders := by
  have hpg1 := pgOrderCreate_ok_orders s.pgOrders order pgo pg1 hpg
  have hmemeq := memOrderCreate_error_state s.memOrders pgo mem1 e hmem
  have hsome : mget pg1.orders pgo.id = some pgo := by
    rw [hpg1]; exact mget_mput_self _ _ _
  unfold CreateOrderCtrl
  rw [hval]
  dsimp only
  rw [hpg]
  dsimp only
  rw [hmem]
  dsimp only
  refine ⟨rfl, ?_, hmemeq⟩
  unfold pgOrderDelete
  rw [hsome]
  dsimp only
  exact mget_mdel_self _ _

/-- Book for the C4 witness. -/
def c4book : Book := { id := 1, title := "A", authorId := 1, price := 10, stock := 5 }

/-- Customer for the C4 witness. -/
def c4customer : Customer := { id := 7, name := "n", email := "e" }

/-- Order already occupying id 5 in the cache (so the cache-side create of the
id-synchronized order fails). -/
def c4oldMemOrder : Order :=
  { id := 5, customer := c4customer, items := [⟨1, 1⟩],
    totalPrice := 10, createdAt := 0, status := "pending" }

/-- C4 witness state: cache order store holds id 5, PostgreSQL is empty. -/
def c4state : SysState :=
  { memBooks := { books := [(1, c4book)], nextID := 2 }
    memOrders := { orders := [(5, c4oldMemOrder)], nextID := 6 }
    memCustomers := [(7, c4customer)]
    memAuthors := []
    pgOrders := { orders := [], nextID := 1 }
    pgBooks := []
    pgAuthors := [] }

/-- C4 witness request (carries id 5). -/
def c4req : Order :=
  { id := 5, customer := { id := 7, name := "", email := "" },
    items := [⟨1, 2⟩], totalPrice := 20, createdAt := 0, status := "" }

/-- The validated order the C4 witness create produces. -/
def c4order : Order :=
  { id := 5, customer := c4customer, items := [⟨1, 2⟩],
    totalPrice := 20, createdAt := 100, status := "pending" }

/-- Witness for C4 at a concrete state and request. -/
theorem C4_create_order_compensation_witness :
    (CreateOrderCtrl c4state c4req 100).2 = .error ⟨"Order ID already exists"⟩ ∧
    mget (CreateOrderCtrl c4state c4req 100).1.pgOrders.orders c4order.id = none ∧
    (CreateOrderCtrl c4state c4req 100).1.memOrders = c4state.memOrders :=
  C4_create_order_compensation c4state c4req 100
    { books := [(1, { c4book with stock := 3 })], nextID := 2 } c4order
    { orders := [(5, c4order)], nextID := 6 } c4order c4state.memOrders
    ⟨"Order ID already exists"⟩ (by decide) (by decide) (by decide)

/-! ## Claim C3: DeleteAuthor ordering and cascade -/

theorem mget_of_mem_nodup {V : Type} {m : List (Int × V)} {k : Int} {v : V}
    (hnd : (mkeys m).Nodup) (hmem : (k, v) ∈ m) : mget m k = some v := by
  induction m with
  | nil => cases hmem
  | cons p rest ih =>
      obtain ⟨k0, w⟩ := p
      simp only [mkeys, List.map_cons, List.nodup_cons] at hnd
      rcases List.mem_cons.mp hmem with h | h
      · obtain ⟨hk, hv⟩ := Prod.mk.injEq .. ▸ h.symm
        simp [mget, hk, hv]
      · have hne : k0 ≠ k := by
          intro hkk
          subst hkk
          exact hnd.1 (List.mem_map.mpr ⟨(k0, v), h, rfl⟩)
        simp only [mget, if_neg hne]
        exact ih hnd.2 h

theorem processAuthorBook_frame (id : Int) (s : SysState) (book : Book) :
    (processAuthorBook id s book).memOrders = s.memOrders ∧
    (processAuthorBook id s book).memCustomers = s.memCustomers ∧
    (processAuthorBook id s book).memAuthors = s.memAuthors ∧
    (processAuthorBook id s book).pgAuthors = s.pgAuthors ∧
    (processAuthorBook id s book).pgOrders = s.pgOrders := by
  unfold processAuthorBook
  split
  · split
    · exact ⟨rfl, rfl, rfl, rfl, rfl⟩
    · exact ⟨rfl, rfl, rfl, rfl, rfl⟩
  · exact ⟨rfl, rfl, rfl, rfl, rfl⟩

theorem deleteAuthorLoop_frame (id : Int) (books : List Book) :
    ∀ s : SysState,
    (deleteAuthorLoop id s books).memOrders = s.memOrders ∧
    (deleteAuthorLoop id s books).memAuthors = s.memAuthors ∧
    (deleteAuthorLoop id s books).pgAuthors = s.pgAuthors := by
  induction books with
  | nil => exact fun s => ⟨rfl, rfl, rfl⟩
  | cons b rest ih =>
      intro s
      have hf := processAuthorBook_frame id s b
      have hr := ih (processAuthorBook id s b)
      exact ⟨hr.1.trans hf.1, hr.2.1.trans hf.2.2.1, hr.2.2.trans hf.2.2.2.1⟩

theorem bookReferencedByOrder_congr {s1 s2 : SysState} (x : Int)
    (h : s1.memOrders = s2.memOrders) :
    bookReferencedByOrder s1 x = bookReferencedByOrder s2 x := by
  unfold bookReferencedByOrder memOrderGetAll
  rw [h]

theorem DeleteBook_mget_self (st : InMemoryBookStore) (x : Int) :
    mget (DeleteBook st x).1.books x = none := by
  unfold DeleteBook
  cases hg : mget st.books x with
  | none => exact hg
  | some _ => exact mget_mdel_self _ _

theorem DeleteBook_mget_ne (st : InMemoryBookStore) (x k : Int) (h : k ≠ x) :
    mget (DeleteBook st x).1.books k = mget st.books k := by
  unfold DeleteBook
  cases hg : mget st.books x with
  | none => rfl
  | some _ => exact mget_mdel_ne _ _ _ h

theorem pgBookDelete_mget_self (books : List (Int × Book)) (x : Int) :
    mget (pgBookDelete books x).1 x = none := by
  unfold pgBookDelete
  cases hg : mget books x with
  | none => exact hg
  | some _ => exact mget_mdel_self _ _

theorem pgBookDelete_mget_ne (books : List (Int × Book)) (x k : Int) (h : k ≠ x) :
    mget (pgBookDelete books x).1 k = mget books k := by
  unfold pgBookDelete
  cases hg : mget books x with
  | none => rfl
  | some _ => exact mget_mdel_ne _ _ _ h

theorem deleteAuthorLoop_kept (id : Int) (books : List Book) :
    ∀ (s : SysState) (b : Book),
    bookReferencedByOrder s b.id = true →
    mget s.memBooks.books b.id = some b →
    mget (deleteAuthorLoop id s books).memBooks.books b.id = some b := by
  induction books with
  | nil => exact fun s b _ hsome => hsome
  | cons b0 rest ih =>
      intro s b href hsome
      have hrefstep : bookReferencedByOrder (processAuthorBook id s b0) b.id = true := by
        rw [bookReferencedByOrder_congr b.id (processAuthorBook_frame id s b0).1]
        exact href
      have hstep : mget (processAuthorBook id s b0).memBooks.books b.id = some b := by
        unfold processAuthorBook
        split
        · split
          · exact hsome
          · rename_i hrefb0
            have hne : b.id ≠ b0.id := by
              intro hkk
              rw [hkk] at href
              rw [href] at hrefb0
              exact hrefb0 rfl
            show mget (DeleteBook s.memBooks b0.id).1.books b.id = some b
            rw [DeleteBook_mget_ne s.memBooks b0.id b.id hne]
            exact hsome
        · exact hsome
      exact ih (processAuthorBook id s b0) b hrefstep hstep

theorem deleteAuthorLoop_none_mem (id : Int) (books : List Book) :
    ∀ (s : SysState) (k : Int),
    mget s.memBooks.books k = none →
    mget (deleteAuthorLoop id s books).memBooks.books k = none := by
  induction books with
  | nil => exact fun s k h => h
  | cons b0 rest ih =>
      intro s k h
      refine ih (processAuthorBook id s b0) k ?_
      unfold processAuthorBook
      split
      · split
        · exact h
        · show mget (DeleteBook s.memBooks b0.id).1.books k = none
          by_cases hk : k = b0.id
          · rw [hk]; exact DeleteBook_mget_self s.memBooks b0.id
          · rw [DeleteBook_mget_ne s.memBooks b0.id k hk]; exact h
      · exact h

theorem deleteAuthorLoop_none_pg (id : Int) (books : List Book) :
    ∀ (s : SysState) (k : Int),
    mget s.pgBooks k = none →
    mget (deleteAuthorLoop id s books).pgBooks k = none := by
  induction books with
  | nil => exact fun s k h => h
  | cons b0 rest ih =>
      intro s k h
      refine ih (processAuthorBook id s b0) k ?_
      unfold processAuthorBook
      split
      · split
        · exact h
        · show mget (pgBookDelete s.pgBooks b0.id).1 k = none
          by_cases hk : k = b0.id
          · rw [hk]; exact pgBookDelete_mget_self s.pgBooks b0.id
          · rw [pgBookDelete_mget_ne s.pgBooks b0.id k hk]; exact h
      · exact h

theorem deleteAuthorLoop_unref_deleted (id : Int) (books : List Book) :
    ∀ (s : SysState) (b : Book), b ∈ books → b.authorId = id →
    bookReferencedByOrder s b.id = false →
    mget (deleteAuthorLoop id s books).memBooks.books b.id = none ∧
    mget (deleteAuthorLoop id s books).pgBooks b.id = none := by
  induction books with
  | nil => intro s b hmem; cases hmem
  | cons b0 rest ih =>
      intro s b hmem hauth href
      have hrefstep : bookReferencedByOrder (processAuthorBook id s b0) b.id = false := by
        rw [bookReferencedByOrder_congr b.id (processAuthorBook_frame id s b0).1]
        exact href
      rcases List.mem_cons.mp hmem with hb | hb
      · subst hb
        have hstep : mget (processAuthorBook id s b).memBooks.books b.id = none ∧
            mget (processAuthorBook id s b).pgBooks b.id = none := by
          unfold processAuthorBook
          rw [if_pos hauth, href]
          exact ⟨DeleteBook_mget_self s.memBooks b.id, pgBookDelete_mget_self s.pgBooks b.id⟩
        exact ⟨deleteAuthorLoop_none_mem id rest _ b.id hstep.1,
               deleteAuthorLoop_none_pg id rest _ b.id hstep.2⟩
      · exact ih (processAuthorBook id s b0) b hb hauth hrefstep

theorem pgAuthorDelete_mget_self (authors : List (Int × Author)) (x : Int) :
    mget (pgAuthorDelete authors x).1 x = none := by
  unfold pgAuthorDelete
  cases hg : mget authors x with
  | none => exact hg
  | some _ => exact mget_mdel_self _ _

theorem mget_of_mem_mvals {m : List (Int × Book)} {b : Book}
    (hwf : ∀ p ∈ m, (p.2 : Book).id = p.1) (hnd : (mkeys m).Nodup)
    (hb : b ∈ mvals m) : mget m b.id = some b := by
  rcases List.mem_map.mp hb with ⟨p, hp, hpe⟩
  have hk : b.id = p.1 := by rw [← hpe]; exact hwf p hp
  rw [hk]
  refine mget_of_mem_nodup hnd ?_
  have hpair : (p.1, b) = p := by
    rw [← hpe]
  rw [hpair]
  exact hp

/-- C3 (amended): in `DeleteAuthor` the author record is deleted from the
in-memory store *before* any book is processed, not after; only the PostgreSQL
author record survives until every book has been processed and is removed
last.  The cascade itself is as described: each book of the author that no
order references is deleted from both book stores, and each referenced book is
kept unchanged. -/
theorem C3_delete_author_cache_first_pg_last (s : SysState) (id : Int)
    (a pa : Author)
    (hmem : mget s.memAuthors id = some a)
    (hpg : mget s.pgAuthors id = some pa)
    (hwf : ∀ p ∈ s.memBooks.books, (p.2 : Book).id = p.1)
    (hnd : (mkeys s.memBooks.books).Nodup) :
    (deleteAuthorStage1 s id).2 = none ∧
    mget (deleteAuthorStage1 s id).1.memAuthors id = none ∧
    (∀ n : Nat,
      mget (deleteAuthorLoop id (deleteAuthorStage1 s id).1
        ((GetAllBooks (deleteAuthorStage1 s id).1.memBooks).take n)).pgAuthors id
        = some pa) ∧
    mget (DeleteAuthorCtrl s id).1.pgAuthors id = none ∧
    (DeleteAuthorCtrl s id).2 = .ok () ∧
    (∀ b ∈ GetAllBooks (deleteAuthorStage1 s id).1.memBooks, b.authorId = id →
      (bookReferencedByOrder (deleteAuthorStage1 s id).1 b.id = true →
        mget (DeleteAuthorCtrl s id).1.memBooks.books b.id = some b) ∧
      (bookReferencedByOrder (deleteAuthorStage1 s id).1 b.id = false →
        mget (DeleteAuthorCtrl s id).1.memBooks.books b.id = none ∧
        mget (DeleteAuthorCtrl s id).1.pgBooks b.id = none)) := by
  have hstage : deleteAuthorStage1 s id =
      ({ s with memAuthors := mdel s.memAuthors id }, none) := by
    unfold deleteAuthorStage1 memAuthorDelete
    rw [hmem]
  have hctrl : DeleteAuthorCtrl s id =
      (let s2 := deleteAuthorLoop id (deleteAuthorStage1 s id).1
        (GetAllBooks (deleteAuthorStage1 s id).1.memBooks);
       ({ s2 with pgAuthors := (pgAuthorDelete s2.pgAuthors id).1 }, .ok ())) := by
    unfold DeleteAuthorCtrl
    rw [hstage]
  have hs1books : (deleteAuthorStage1 s id).1.memBooks = s.memBooks := by
    rw [hstage]
  have hs1pga : (deleteAuthorStage1 s id).1.pgAuthors = s.pgAuthors := by
    rw [hstage]
  have hs2pga : (deleteAuthorLoop id (deleteAuthorStage1 s id).1
      (GetAllBooks (deleteAuthorStage1 s id).1.memBooks)).pgAuthors = s.pgAuthors := by
    rw [(deleteAuthorLoop_frame id _ _).2.2, hs1pga]
  refine ⟨?_, ?_, ?_, ?_, ?_, ?_⟩
  · rw [hstage]
  · rw [hstage]
    exact mget_mdel_self _ _
  · intro n
    rw [(deleteAuthorLoop_frame id _ _).2.2, hs1pga]
    exact hpg
  · rw [hctrl]
    show mget (pgAuthorDelete _ id).1 id = none
    exact pgAuthorDelete_mget_self _ id
  · rw [hctrl]
  · intro b hb hauth
    have hsome : mget (deleteAuthorStage1 s id).1.memBooks.books b.id = some b := by
      rw [hs1books]
      rw [hs1books] at hb
      exact mget_of_mem_mvals hwf hnd hb
    constructor
    · intro href
      rw [hctrl]
      show mget (deleteAuthorLoop id (deleteAuthorStage1 s id).1
        (GetAllBooks (deleteAuthorStage1 s id).1.memBooks)).memBooks.books b.id = some b
      exact deleteAuthorLoop_kept id _ _ b href hsome
    · intro href
      rw [hctrl]
      have h1 := deleteAuthorLoop_unref_deleted id
        (GetAllBooks (deleteAuthorStage1 s id).1.memBooks)
        (deleteAuthorStage1 s id).1 b hb hauth href
      exact ⟨h1.1, h1.2⟩

/-- The author of the C3 instances. -/
def c3author : Author := { id := 1, firstName := "f", lastName := "l", bio := "b" }

/-- Book of author 1 referenced by no order (will be cascaded away). -/
def c3book10 : Book := { id := 10, title := "T10", authorId := 1, price := 5, stock := 2 }

/-- Book of author 1 referenced by an order (must be kept). -/
def c3book11 : Book := { id := 11, title := "T11", authorId := 1, price := 6, stock := 3 }

/-- The order referencing book 11. -/
def c3order : Order :=
  { id := 1, customer := ⟨7, "n", "e"⟩, items := [⟨11, 1⟩],
    totalPrice := 6, createdAt := 0, status := "pending" }

/-- State for the C3 instances: author 1 in both author stores, two of their
books in both book stores, one order referencing book 11. -/
def c3state : SysState :=
  { memBooks := { books := [(10, c3book10), (11, c3book11)], nextID := 12 }
    memOrders := { orders := [(1, c3order)], nextID := 2 }
    memCustomers := [(7, ⟨7, "n", "e"⟩)]
    memAuthors := [(1, c3author)]
    pgOrders := { orders := [(1, c3order)], nextID := 2 }
    pgBooks := [(10, c3book10), (11, c3book11)]
    pgAuthors := [(1, c3author)] }

/-- C3 counterexample: at `c3state`, deleting author 1 removes the author from
the in-memory store in its first step, while the (nonempty) per-book
processing over the author's books is still entirely ahead — so during the
per-book processing the author has already been deleted from one store,
contrary to the claim. -/
theorem C3_counterexample :
    (deleteAuthorStage1 c3state 1).2 = none ∧
    GetAllBooks (deleteAuthorStage1 c3state 1).1.memBooks ≠ [] ∧
    mget (deleteAuthorStage1 c3state 1).1.memAuthors 1 = none ∧
    mget c3state.memAuthors 1 = some c3author := by
  decide

/-- Witness for C3 (amended) at `c3state`, with the prefix length 1 and the
two books instantiated. -/
theorem C3_delete_author_cache_first_pg_last_witness :
    (deleteAuthorStage1 c3state 1).2 = none ∧
    mget (deleteAuthorStage1 c3state 1).1.memAuthors 1 = none ∧
    mget (deleteAuthorLoop 1 (deleteAuthorStage1 c3state 1).1
      ((GetAllBooks (deleteAuthorStage1 c3state 1).1.memBooks).take 1)).pgAuthors 1
      = some c3author ∧
    mget (DeleteAuthorCtrl c3state 1).1.pgAuthors 1 = none ∧
    (DeleteAuthorCtrl c3state 1).2 = .ok () ∧
    mget (DeleteAuthorCtrl c3state 1).1.memBooks.books 11 = some c3book11 ∧
    mget (DeleteAuthorCtrl c3state 1).1.memBooks.books 10 = none ∧
    mget (DeleteAuthorCtrl c3state 1).1.pgBooks 10 = none :=
  have h := C3_delete_author_cache_first_pg_last c3state 1 c3author c3author
    (by decide) (by decide) (by decide) (by decide)
  ⟨h.1, h.2.1, h.2.2.1 1, h.2.2.2.1, h.2.2.2.2.1,
   (h.2.2.2.2.2 c3book11 (by decide) (by decide)).1 (by decide),
   ((h.2.2.2.2.2 c3book10 (by decide) (by decide)).2 (by decide)).1,
   ((h.2.2.2.2.2 c3book10 (by decide) (by decide)).2 (by decide)).2⟩

/-! ## Shared stock-adjustment lemmas (claims C1, C5, C6) -/

/-- Key consistency of a book map: each stored book's `id` equals its key.
Every book-store operation maintains this. -/
def BooksWF (m : List (Int × Book)) : Prop := ∀ p ∈ m, (p.2 : Book).id = p.1

/-- Total quantity with which the given items reference book `k`. -/
def restockOf (items : List OrderItem) (k : Int) : Int :=
  ((items.filter fun it => it.bookId == k).map OrderItem.quantity).sum

@[simp] theorem restockOf_nil (k : Int) : restockOf [] k = 0 := rfl

theorem restockOf_cons (it : OrderItem) (rest : List OrderItem) (k : Int) :
    restockOf (it :: rest) k =
      (if it.bookId = k then it.quantity else 0) + restockOf rest k := by
  by_cases h : it.bookId = k <;>
    simp [restockOf, List.filter_cons, h]

theorem GetBook_ok_iff (store : InMemoryBookStore) (k : Int) (b : Book) :
    GetBook store k = .ok b ↔ mget store.books k = some b := by
  unfold GetBook
  cases hg : mget store.books k <;> simp

theorem GetBook_error_iff (store : InMemoryBookStore) (k : Int) :
    (∃ e, GetBook store k = .error e) ↔ mget store.books k = none := by
  unfold GetBook
  cases hg : mget store.books k <;> simp

theorem UpdateBook_some (store : InMemoryBookStore) (idk : Int) (b bb : Book)
    (h : mget store.books idk = some bb) :
    UpdateBook store idk b =
      ({ store with books := mput store.books idk { b with id := idk } },
       .ok { b with id := idk }) := by
  unfold UpdateBook
  rw [h]

theorem booksWF_mput {m : List (Int × Book)} {k : Int} {b : Book}
    (hwf : BooksWF m) (hb : b.id = k) : BooksWF (mput m k b) := by
  intro p hp
  rcases mem_mput hp with h | h
  · rw [h]; exact hb
  · exact hwf p h

theorem booksWF_book_id {m : List (Int × Book)} {k : Int} {b : Book}
    (hwf : BooksWF m) (h : mget m k = some b) : b.id = k :=
  hwf (k, b) (mget_eq_some_mem h)

theorem processItems_cons_missing (store : InMemoryBookStore) (item : OrderItem)
    (rest : List OrderItem) (hgb : mget store.books item.bookId = none) :
    processItems store (item :: rest) = processItems store rest := by
  conv_lhs => rw [processItems]
  rw [show GetBook store item.bookId = .error ⟨"Book not found"⟩ from by
    unfold GetBook; rw [hgb]]

/-- The book store state after an accepted item's stock write. -/
def acceptStore (store : InMemoryBookStore) (item : OrderItem) (book : Book) :
    InMemoryBookStore :=
  { store with books := mput store.books book.id ({ book with stock := book.stock - item.quantity }) }

theorem processItems_cons_reject (store : InMemoryBookStore) (item : OrderItem)
    (rest : List OrderItem) (book : Book)
    (hgb : mget store.books item.bookId = some book)
    (hcond : item.quantity > book.stock ∨ book.stock = 0) :
    processItems store (item :: rest) = processItems store rest := by
  conv_lhs => rw [processItems]
  rw [(GetBook_ok_iff _ _ _).mpr hgb]
  dsimp only
  rw [if_pos hcond]

theorem processItems_cons_accept (store : InMemoryBookStore) (item : OrderItem)
    (rest : List OrderItem) (book : Book)
    (hgb : mget store.books item.bookId = some book)
    (hbid : book.id = item.bookId)
    (hq : ¬ item.quantity > book.stock) (hs : ¬ book.stock = 0) :
    processItems store (item :: rest) =
      ((processItems (acceptStore store item book) rest).1,
       { item with bookId := book.id } ::
         (processItems (acceptStore store item book) rest).2.1,
       (processItems (acceptStore store item book) rest).2.2) := by
  have hgb2 : mget store.books book.id = some book := by rw [hbid]; exact hgb
  conv_lhs => rw [processItems]
  rw [(GetBook_ok_iff _ _ _).mpr hgb]
  dsimp only
  rw [if_neg (not_or.mpr ⟨hq, hs⟩)]
  rw [UpdateBook_some store book.id ({ book with stock := book.stock - item.quantity })
    book hgb2]
  dsimp only
  unfold acceptStore
  rcases hX : processItems { store with books := mput store.books book.id ({ book with stock := book.stock - item.quantity }) } rest
    with ⟨storeF, items2, err⟩
  rfl

theorem processItems_spec (items : List OrderItem) :
    ∀ store : InMemoryBookStore, BooksWF store.books →
    BooksWF (processItems store items).1.books ∧
    (processItems store items).2.2 = none ∧
    ∀ k, mget (processItems store items).1.books k =
      (mget store.books k).map
        (fun b => { b with stock := b.stock - restockOf ((processItems store items).2.1) k }) := by
  induction items with
  | nil =>
      intro store hwf
      refine ⟨hwf, rfl, ?_⟩
      intro k
      cases hg : mget store.books k with
      | none => simp [processItems, hg]
      | some b => simp [processItems, hg, restockOf]
  | cons item rest ih =>
      intro store hwf
      cases hgb : mget store.books item.bookId with
      | none =>
          rw [processItems_cons_missing store item rest hgb]
          exact ih store hwf
      | some book =>
          by_cases hcond : item.quantity > book.stock ∨ book.stock = 0
          · rw [processItems_cons_reject store item rest book hgb hcond]
            exact ih store hwf
          · have hbid := booksWF_book_id hwf hgb
            have hq : ¬ item.quantity > book.stock := fun h => hcond (Or.inl h)
            have hs : ¬ book.stock = 0 := fun h => hcond (Or.inr h)
            rw [processItems_cons_accept store item rest book hgb hbid hq hs]
            have hwf1 : BooksWF (acceptStore store item book).books := by
              unfold acceptStore
              exact booksWF_mput hwf rfl
            obtain ⟨h1, h2, h3⟩ := ih (acceptStore store item book) hwf1
            refine ⟨h1, h2, ?_⟩
            intro k
            rw [h3 k]
            by_cases hk : k = book.id
            · subst hk
              have hg1 : mget (acceptStore store item book).books book.id =
                  some ({ book with stock := book.stock - item.quantity }) := by
                unfold acceptStore
                exact mget_mput_self _ _ _
              have hg0 : mget store.books book.id = some book := by rw [hbid]; exact hgb
              rw [hg1, hg0]
              simp only [Option.map_some']
              rw [restockOf_cons]
              rw [if_pos (rfl :
                ({ item with bookId := book.id } : OrderItem).bookId = book.id)]
              have harith : book.stock - item.quantity -
                  restockOf ((processItems (acceptStore store item book) rest).2.1) book.id =
                  book.stock - (item.quantity +
                    restockOf ((processItems (acceptStore store item book) rest).2.1) book.id) := by
                omega
              rw [harith]
            · have hg1 : mget (acceptStore store item book).books k = mget store.books k := by
                unfold acceptStore
                exact mget_mput_ne _ _ _ _ hk
              rw [hg1, restockOf_cons]
              rw [if_neg (show ¬ ({ item with bookId := book.id } : OrderItem).bookId = k
                from fun h => hk (by exact h.symm))]
              simp only [zero_add]

theorem restoreItems_cons_missing (store : InMemoryBookStore) (item : OrderItem)
    (rest : List OrderItem) (hgb : mget store.books item.bookId = none) :
    restoreItems store (item :: rest) = restoreItems store rest := by
  conv_lhs => rw [restoreItems]
  rw [show GetBook store item.bookId = .error ⟨"Book not found"⟩ from by
    unfold GetBook; rw [hgb]]

/-- The book store state after one restore-loop step that found its book. -/
def restoreStore (store : InMemoryBookStore) (item : OrderItem) (book : Book) :
    InMemoryBookStore :=
  { store with books := mput store.books book.id ({ book with stock := book.stock + item.quantity }) }

theorem restoreItems_cons_found (store : InMemoryBookStore) (item : OrderItem)
    (rest : List OrderItem) (book : Book)
    (hgb : mget store.books item.bookId = some book)
    (hbid : book.id = item.bookId) :
    restoreItems store (item :: rest) =
      restoreItems (restoreStore store item book) rest := by
  conv_lhs => rw [restoreItems]
  rw [(GetBook_ok_iff _ _ _).mpr hgb]
  dsimp only
  rw [UpdateBook_some store book.id ({ book with stock := book.stock + item.quantity })
    book (by rw [hbid]; exact hgb)]
  unfold restoreStore
  rfl

theorem restoreItems_spec (items : List OrderItem) :
    ∀ store : InMemoryBookStore, BooksWF store.books →
    BooksWF (restoreItems store items).books ∧
    ∀ k, mget (restoreItems store items).books k =
      (mget store.books k).map
        (fun b => { b with stock := b.stock + restockOf items k }) := by
  induction items with
  | nil =>
      intro store hwf
      refine ⟨hwf, ?_⟩
      intro k
      cases hg : mget store.books k <;> simp [restoreItems, hg, restockOf]
  | cons item rest ih =>
      intro store hwf
      cases hgb : mget store.books item.bookId with
      | none =>
          rw [restoreItems_cons_missing store item rest hgb]
          obtain ⟨h1, h2⟩ := ih store hwf
          refine ⟨h1, ?_⟩
          intro k
          rw [h2 k, restockOf_cons]
          by_cases hk : item.bookId = k
          · rw [← hk, hgb]
            simp
          · rw [if_neg hk, zero_add]
      | some book =>
          have hbid := booksWF_book_id hwf hgb
          rw [restoreItems_cons_found store item rest book hgb hbid]
          have hwf1 : BooksWF (restoreStore store item book).books := by
            unfold restoreStore
            exact booksWF_mput hwf rfl
          obtain ⟨h1, h2⟩ := ih (restoreStore store item book) hwf1
          refine ⟨h1, ?_⟩
          intro k
          rw [h2 k]
          by_cases hk : k = book.id
          · subst hk
            have hg1 : mget (restoreStore store item book).books book.id =
                some ({ book with stock := book.stock + item.quantity }) := by
              unfold restoreStore
              exact mget_mput_self _ _ _
            have hg0 : mget store.books book.id = some book := by rw [hbid]; exact hgb
            rw [hg1, hg0]
            simp only [Option.map_some']
            rw [restockOf_cons]
            rw [if_pos hbid.symm]
            have harith : book.stock + item.quantity + restockOf rest book.id =
                book.stock + (item.quantity + restockOf rest book.id) := by omega
            rw [harith]
          · have hg1 : mget (restoreStore store item book).books k = mget store.books k := by
              unfold restoreStore
              exact mget_mput_ne _ _ _ _ hk
            rw [hg1, restockOf_cons]
            rw [if_neg (show ¬ item.bookId = k from fun h => hk (by rw [← h, ← hbid]))]
            simp only [zero_add]

/-! ## Claim C5: understocked items are dropped -/

theorem processItems_rejected_book (items : List OrderItem) :
    ∀ (store : InMemoryBookStore) (b : Int) (book : Book),
    BooksWF store.books →
    mget store.books b = some book →
    (∀ it ∈ items, it.bookId = b → it.quantity > book.stock) →
    mget (processItems store items).1.books b = some book ∧
    ∀ it ∈ (processItems store items).2.1, it.bookId ≠ b := by
  induction items with
  | nil =>
      intro store b book hwf hg hall
      exact ⟨hg, by simp [processItems]⟩
  | cons item rest ih =>
      intro store b book hwf hg hall
      have hallrest : ∀ it ∈ rest, it.bookId = b → it.quantity > book.stock :=
        fun it hit => hall it (List.mem_cons_of_mem _ hit)
      cases hgb : mget store.books item.bookId with
      | none =>
          rw [processItems_cons_missing store item rest hgb]
          exact ih store b book hwf hg hallrest
      | some bk =>
          by_cases hcond : item.quantity > bk.stock ∨ bk.stock = 0
          · rw [processItems_cons_reject store item rest bk hgb hcond]
            exact ih store b book hwf hg hallrest
          · have hbid := booksWF_book_id hwf hgb
            have hq : ¬ item.quantity > bk.stock := fun h => hcond (Or.inl h)
            have hneq : item.bookId ≠ b := by
              intro heq
              rw [heq, hg] at hgb
              have hbk : book = bk := by injection hgb
              exact hq (hbk ▸ hall item (List.mem_cons_self item rest) heq)
            rw [processItems_cons_accept store item rest bk hgb hbid hq
              (fun h => hcond (Or.inr h))]
            have hkey : b ≠ bk.id := by
              rw [hbid]
              exact fun h => hneq h.symm
            have hg1 : mget (acceptStore store item bk).books b = some book := by
              unfold acceptStore
              rw [mget_mput_ne _ _ _ _ hkey]
              exact hg
            have hwf1 : BooksWF (acceptStore store item bk).books := by
              unfold acceptStore
              exact booksWF_mput hwf rfl
            obtain ⟨ha, hvalid⟩ := ih (acceptStore store item bk) b book hwf1 hg1 hallrest
            refine ⟨ha, ?_⟩
            intro it hit
            rcases List.mem_cons.mp hit with h | h
            · rw [h]
              show bk.id ≠ b
              rw [hbid]
              exact hneq
            · exact hvalid it h

theorem memOrderCreate_ok_stored (st : MemOrderStore) (o o2 : Order)
    (st2 : MemOrderStore) (h : memOrderCreate st o = (st2, .ok o2)) :
    mget st2.orders o2.id = some o2 ∧ o2.items = o.items ∧ o2.status = o.status ∧
    o2.createdAt = o.createdAt := by
  unfold memOrderCreate at h
  split at h
  · split at h
    · exact absurd (Prod.mk.injEq .. ▸ h).2 (by simp)
    · obtain ⟨h1, h2⟩ := Prod.mk.injEq .. ▸ h
      have ho : o = o2 := by injection h2
      subst ho
      rw [← h1]
      exact ⟨mget_mput_self _ _ _, rfl, rfl, rfl⟩
  · obtain ⟨h1, h2⟩ := Prod.mk.injEq .. ▸ h
    have ho : { o with id := st.nextID } = o2 := by injection h2
    rw [← h1, ← ho]
    exact ⟨mget_mput_self _ _ _, rfl, rfl, rfl⟩

theorem pgOrderCreate_ok_fields (st : PgOrderStore) (o o2 : Order)
    (st2 : PgOrderStore) (h : pgOrderCreate st o = (st2, .ok o2)) :
    o2.items = o.items ∧ o2.status = o.status ∧ o2.createdAt = o.createdAt := by
  unfold pgOrderCreate at h
  split at h
  · split at h
    · exact absurd (Prod.mk.injEq .. ▸ h).2 (by simp)
    · obtain ⟨-, h2⟩ := Prod.mk.injEq .. ▸ h
      have ho : o = o2 := by injection h2
      rw [← ho]
      exact ⟨rfl, rfl, rfl⟩
  · obtain ⟨-, h2⟩ := Prod.mk.injEq .. ▸ h
    have ho : { o with id := st.nextID } = o2 := by injection h2
    rw [← ho]
    exact ⟨rfl, rfl, rfl⟩

theorem createOrderValidated_books (s : SysState) (req : Order) (now : Int) :
    (createOrderValidated s req now).1 = s.memBooks ∨
    (createOrderValidated s req now).1 = (processItems s.memBooks req.items).1 := by
  unfold createOrderValidated
  by_cases hst : req.status = "" <;>
    simp only [hst, ite_true, ite_false] <;>
    try dsimp only
  all_goals
    rcases memCustomerGet s.memCustomers req.customer.id with ⟨c, err⟩
  all_goals cases err with
    | some e => exact Or.inl rfl
    | none =>
        dsimp only
        rcases processItems s.memBooks req.items with ⟨books1, valid, perr⟩
        cases perr with
        | some e => exact Or.inr rfl
        | none =>
            dsimp only
            split
            · exact Or.inr rfl
            · exact Or.inr rfl

theorem createOrderValidated_ok_elim (s : SysState) (req : Order) (now : Int)
    (books1 : InMemoryBookStore) (order : Order)
    (hval : createOrderValidated s req now = (books1, .ok order)) :
    books1 = (processItems s.memBooks req.items).1 ∧
    order.items = (processItems s.memBooks req.items).2.1 ∧
    order.status = (if req.status = "" then OrderStatusPending else req.status) ∧
    order.createdAt = now := by
  unfold createOrderValidated at hval
  by_cases hst : req.status = "" <;>
    simp only [hst, ite_true, ite_false] at hval ⊢ <;>
    try dsimp only at hval
  all_goals
    rcases hmc : memCustomerGet s.memCustomers req.customer.id with ⟨c, err⟩
  all_goals rw [hmc] at hval
  all_goals cases err with
    | some e =>
        dsimp only at hval
        exact absurd (Prod.mk.injEq .. ▸ hval).2 (by simp)
    | none =>
        dsimp only at hval
        rcases hpi : processItems s.memBooks req.items with ⟨pbooks, valid, perr⟩
        rw [hpi] at hval
        cases perr with
        | some e =>
            dsimp only at hval
            exact absurd (Prod.mk.injEq .. ▸ hval).2 (by simp)
        | none =>
            dsimp only at hval
            by_cases hemp : valid.isEmpty
            · rw [if_pos hemp] at hval
              exact absurd (Prod.mk.injEq .. ▸ hval).2 (by simp)
            · rw [if_neg hemp] at hval
              obtain ⟨h1, h2⟩ := Prod.mk.injEq .. ▸ hval
              have ho := h2
              injection ho with ho2
              rw [← ho2, h1.symm]
              exact ⟨rfl, rfl, rfl, rfl⟩

theorem CreateOrderCtrl_memBooks (s : SysState) (req : Order) (now : Int) :
    (CreateOrderCtrl s req now).1.memBooks = (createOrderValidated s req now).1 := by
  unfold CreateOrderCtrl
  rcases hval : createOrderValidated s req now with ⟨books1, r⟩
  cases r with
  | error e => rfl
  | ok order =>
      dsimp only
      rcases hpg : pgOrderCreate s.pgOrders order with ⟨pg1, r2⟩
      cases r2 with
      | error e => rfl
      | ok pgo =>
          dsimp only
          rcases hmem : memOrderCreate s.memOrders pgo with ⟨mem1, r3⟩
          cases r3 with
          | error e =>
              dsimp only
          | ok o2 => rfl

theorem CreateOrderCtrl_ok_chain (s : SysState) (req : Order) (now : Int) (o : Order)
    (h : (CreateOrderCtrl s req now).2 = .ok o) :
    ∃ books1 order pg1 pgo mem1,
      createOrderValidated s req now = (books1, .ok order) ∧
      pgOrderCreate s.pgOrders order = (pg1, .ok pgo) ∧
      memOrderCreate s.memOrders pgo = (mem1, .ok o) ∧
      (CreateOrderCtrl s req now).1 =
        { s with memBooks := books1, pgOrders := pg1, memOrders := mem1 } := by
  unfold CreateOrderCtrl at h ⊢
  rcases hval : createOrderValidated s req now with ⟨books1, r⟩
  rw [hval] at h
  cases r with
  | error e => exact absurd h (by simp)
  | ok order =>
      dsimp only at h ⊢
      rcases hpg : pgOrderCreate s.pgOrders order with ⟨pg1, r2⟩
      rw [hpg] at h
      cases r2 with
      | error e => exact absurd h (by simp)
      | ok pgo =>
          dsimp only at h ⊢
          rcases hmem : memOrderCreate s.memOrders pgo with ⟨mem1, r3⟩
          rw [hmem] at h
          cases r3 with
          | error e =>
              dsimp only at h
              rcases pgOrderDelete pg1 pgo.id with ⟨pg2, d⟩
              exact absurd h (by simp)
          | ok o2 =>
              dsimp only at h ⊢
              have ho : o2 = o := by injection h
              subst ho
              exact ⟨books1, order, pg1, pgo, mem1, rfl, hpg, hmem, rfl⟩

/-- C5: an item whose quantity exceeds the referenced book's current stock is
dropped.  First half: the validation-loop step for such an item changes
nothing — neither the book store nor the accepted-item list.  Second half: at
the whole-operation level, when every request item referencing book `b`
oversteps its stock (in particular when `b` is referenced by exactly one,
understocked item), `CreateOrder` leaves `b` bound to its old record —
stock unchanged — and a successfully created order contains no item for `b`. -/
theorem C5_understocked_item_excluded :
    (∀ (store : InMemoryBookStore) (item : OrderItem) (rest : List OrderItem) (book : Book),
      mget store.books item.bookId = some book →
      item.quantity > book.stock →
      processItems store (item :: rest) = processItems store rest) ∧
    (∀ (s : SysState) (req : Order) (now : Int) (b : Int) (book : Book),
      BooksWF s.memBooks.books →
      mget s.memBooks.books b = some book →
      (∀ it ∈ req.items, it.bookId = b → it.quantity > book.stock) →
      mget (CreateOrderCtrl s req now).1.memBooks.books b = some book ∧
      ∀ o : Order, (CreateOrderCtrl s req now).2 = .ok o →
        ∀ it ∈ o.items, it.bookId ≠ b) := by
  constructor
  · intro store item rest book hgb hover
    exact processItems_cons_reject store item rest book hgb (Or.inl hover)
  · intro s req now b book hwf hg hall
    have hrb := processItems_rejected_book req.items s.memBooks b book hwf hg hall
    constructor
    · rw [CreateOrderCtrl_memBooks]
      rcases createOrderValidated_books s req now with h | h
      · rw [h]; exact hg
      · rw [h]; exact hrb.1
    · intro o hok it hit
      obtain ⟨books1, order, pg1, pgo, mem1, hval, hpg, hmem, -⟩ :=
        CreateOrderCtrl_ok_chain s req now o hok
      obtain ⟨-, hitems, -, -⟩ := createOrderValidated_ok_elim s req now books1 order hval
      have h1 : o.items = order.items := by
        rw [(memOrderCreate_ok_stored s.memOrders pgo o mem1 hmem).2.1,
            (pgOrderCreate_ok_fields s.pgOrders order pgo pg1 hpg).1]
      rw [h1, hitems] at hit
      exact hrb.2 it hit

/-- The understocked book of the C5 witness (stock 3, requested quantity 5). -/
def c5book1 : Book := { id := 1, title := "A", authorId := 1, price := 10, stock := 3 }

/-- The in-stock book of the C5 witness. -/
def c5book2 : Book := { id := 2, title := "B", authorId := 1, price := 4, stock := 5 }

/-- Customer of the C5 witness. -/
def c5customer : Customer := { id := 7, name := "n", email := "e" }

/-- C5 witness state. -/
def c5state : SysState :=
  { memBooks := { books := [(1, c5book1), (2, c5book2)], nextID := 3 }
    memOrders := { orders := [], nextID := 1 }
    memCustomers := [(7, c5customer)]
    memAuthors := []
    pgOrders := { orders := [], nextID := 1 }
    pgBooks := []
    pgAuthors := [] }

/-- C5 witness request: book 1 ordered with quantity 5 against stock 3. -/
def c5req : Order :=
  { id := 0, customer := { id := 7, name := "", email := "" },
    items := [⟨1, 5⟩, ⟨2, 1⟩], totalPrice := 9, createdAt := 0, status := "" }

/-- The order the C5 witness' create actually produces (book 1 excluded). -/
def c5created : Order :=
  { id := 1, customer := c5customer, items := [⟨2, 1⟩],
    totalPrice := 9, createdAt := 100, status := "pending" }

/-- Witness for C5 at a concrete state and request. -/
theorem C5_understocked_item_excluded_witness :
    processItems c5state.memBooks (⟨1, 5⟩ :: [⟨2, 1⟩]) =
      processItems c5state.memBooks [⟨2, 1⟩] ∧
    mget (CreateOrderCtrl c5state c5req 100).1.memBooks.books 1 = some c5book1 ∧
    (⟨2, 1⟩ : OrderItem).bookId ≠ 1 :=
  ⟨C5_understocked_item_excluded.1 c5state.memBooks ⟨1, 5⟩ [⟨2, 1⟩] c5book1
      (by decide) (by decide),
   (C5_understocked_item_excluded.2 c5state c5req 100 1 c5book1
      (by unfold BooksWF; decide) (by decide) (by decide)).1,
   (C5_understocked_item_excluded.2 c5state c5req 100 1 c5book1
      (by unfold BooksWF; decide) (by decide) (by decide)).2 c5created (by decide)
      ⟨2, 1⟩ (by decide)⟩

theorem pgOrderDelete_mget_self (st : PgOrderStore) (id : Int) :
    mget (pgOrderDelete st id).1.orders id = none := by
  unfold pgOrderDelete
  cases hg : mget st.orders id with
  | none => simpa using hg
  | some o => simp

theorem DeleteOrderCtrl_pending (s : SysState) (id : Int) (order : Order)
    (hget : mget s.memOrders.orders id = some order)
    (hst : ¬ order.status = OrderStatusSuccess) :
    DeleteOrderCtrl s id =
      ({ s with memBooks := restoreItems s.memBooks order.items
                memOrders := { s.memOrders with orders := mdel s.memOrders.orders id }
                pgOrders := (pgOrderDelete s.pgOrders id).1 },
       .ok ()) := by
  unfold DeleteOrderCtrl memOrderGet
  rw [hget]
  try dsimp only
  rw [if_neg hst]
  unfold memOrderDelete
  try dsimp only
  rw [hget]
  try dsimp only

/-- C6: deleting a stored order whose status is not "success" restores, for
every book id, the quantity the order holds for that book (books that no
longer resolve are skipped: the `map` is over the still-stored record), then
removes the order from the in-memory store and the PostgreSQL store and
reports success; deleting a "success" order is rejected with an error and the
whole state is unchanged.  Third part: a freshly created pending order, when
deleted, returns every book entry of the in-memory store to its pre-order
value. -/
theorem C6_delete_pending_restores_success_rejected :
    (∀ (s : SysState) (id : Int) (order : Order),
      BooksWF s.memBooks.books →
      mget s.memOrders.orders id = some order →
      ¬ order.status = OrderStatusSuccess →
      (DeleteOrderCtrl s id).2 = .ok () ∧
      (∀ k, mget (DeleteOrderCtrl s id).1.memBooks.books k =
        (mget s.memBooks.books k).map
          (fun b => { b with stock := b.stock + restockOf order.items k })) ∧
      mget (DeleteOrderCtrl s id).1.memOrders.orders id = none ∧
      mget (DeleteOrderCtrl s id).1.pgOrders.orders id = none) ∧
    (∀ (s : SysState) (id : Int) (order : Order),
      mget s.memOrders.orders id = some order →
      order.status = OrderStatusSuccess →
      DeleteOrderCtrl s id = (s, .error ⟨"Successful orders cannot be deleted"⟩)) ∧
    (∀ (s : SysState) (req : Order) (now : Int) (o : Order),
      BooksWF s.memBooks.books →
      req.status = "" →
      (CreateOrderCtrl s req now).2 = .ok o →
      ∀ k, mget (DeleteOrderCtrl (CreateOrderCtrl s req now).1 o.id).1.memBooks.books k =
        mget s.memBooks.books k) := by
  refine ⟨?_, ?_, ?_⟩
  · intro s id order hwf hget hst
    rw [DeleteOrderCtrl_pending s id order hget hst]
    refine ⟨rfl, ?_, ?_, ?_⟩
    · exact (restoreItems_spec order.items s.memBooks hwf).2
    · exact mget_mdel_self _ _
    · exact pgOrderDelete_mget_self s.pgOrders id
  · intro s id order hget hst
    unfold DeleteOrderCtrl memOrderGet
    rw [hget]
    try dsimp only
    rw [if_pos hst]
  · intro s req now o hwf hreqst hok k
    obtain ⟨books1, order, pg1, pgo, mem1, hval, hpg, hmem, hstate⟩ :=
      CreateOrderCtrl_ok_chain s req now o hok
    obtain ⟨hb1, hitems, hstatus, -⟩ :=
      createOrderValidated_ok_elim s req now books1 order hval
    obtain ⟨hstored, hoitems, hostatus, -⟩ :=
      memOrderCreate_ok_stored s.memOrders pgo o mem1 hmem
    obtain ⟨hpitems, hpstatus, -⟩ :=
      pgOrderCreate_ok_fields s.pgOrders order pgo pg1 hpg
    have hns : ¬ o.status = OrderStatusSuccess := by
      rw [hostatus, hpstatus, hstatus, if_pos hreqst]
      unfold OrderStatusPending OrderStatusSuccess
      decide
    rw [hstate]
    rw [DeleteOrderCtrl_pending _ o.id o hstored hns]
    dsimp only
    have hBwf1 : BooksWF books1.books := by
      rw [hb1]; exact (processItems_spec req.items s.memBooks hwf).1
    rw [(restoreItems_spec o.items books1 hBwf1).2 k]
    have hoi : o.items = (processItems s.memBooks req.items).2.1 := by
      rw [hoitems, hpitems, hitems]
    rw [hb1, (processItems_spec req.items s.memBooks hwf).2.2 k, hoi]
    cases hg : mget s.memBooks.books k with
    | none => rfl
    | some b =>
        simp only [Option.map_some']
        have hb : b.stock - restockOf ((processItems s.memBooks req.items).2.1) k +
            restockOf ((processItems s.memBooks req.items).2.1) k = b.stock := by ring
        simp only [hb]

/-- Book of the C6 witness. -/
def c6book : Book := { id := 1, title := "A", authorId := 1, price := 10, stock := 3 }

/-- Customer of the C6 witness. -/
def c6customer : Customer := { id := 7, name := "n", email := "e" }

/-- Pending order of the C6 witness, holding 2 units of book 1. -/
def c6pending : Order :=
  { id := 5, customer := c6customer, items := [⟨1, 2⟩],
    totalPrice := 20, createdAt := 0, status := "pending" }

/-- Successful order of the C6 witness. -/
def c6success : Order :=
  { id := 6, customer := c6customer, items := [⟨1, 1⟩],
    totalPrice := 10, createdAt := 0, status := "success" }

/-- C6 witness state. -/
def c6state : SysState :=
  { memBooks := { books := [(1, c6book)], nextID := 2 }
    memOrders := { orders := [(5, c6pending), (6, c6success)], nextID := 7 }
    memCustomers := [(7, c6customer)]
    memAuthors := []
    pgOrders := { orders := [(5, c6pending), (6, c6success)], nextID := 7 }
    pgBooks := []
    pgAuthors := [] }

/-- C6 witness create request (status left empty, one unit of book 1). -/
def c6req : Order :=
  { id := 0, customer := { id := 7, name := "", email := "" },
    items := [⟨1, 1⟩], totalPrice := 10, createdAt := 0, status := "" }

/-- The order the C6 witness' create produces. -/
def c6created : Order :=
  { id := 7, customer := c6customer, items := [⟨1, 1⟩],
    totalPrice := 10, createdAt := 100, status := "pending" }

/-- Witness for C6 at a concrete state: pending delete succeeds, restores and
removes; success delete is rejected; create-then-delete is stock-neutral. -/
theorem C6_delete_pending_restores_success_rejected_witness :
    (DeleteOrderCtrl c6state 5).2 = .ok () ∧
    mget (DeleteOrderCtrl c6state 5).1.memBooks.books 1 =
      (mget c6state.memBooks.books 1).map
        (fun b => { b with stock := b.stock + restockOf c6pending.items 1 }) ∧
    mget (DeleteOrderCtrl c6state 5).1.memOrders.orders 5 = none ∧
    mget (DeleteOrderCtrl c6state 5).1.pgOrders.orders 5 = none ∧
    DeleteOrderCtrl c6state 6 = (c6state, .error ⟨"Successful orders cannot be deleted"⟩) ∧
    mget (DeleteOrderCtrl (CreateOrderCtrl c6state c6req 100).1 c6created.id).1.memBooks.books 1 =
      mget c6state.memBooks.books 1 :=
  have h := C6_delete_pending_restores_success_rejected
  have hA := h.1 c6state 5 c6pending (by unfold BooksWF; decide) (by decide) (by decide)
  ⟨hA.1, hA.2.1 1, hA.2.2.1, hA.2.2.2,
   h.2.1 c6state 6 c6success (by decide) (by decide),
   h.2.2 c6state c6req 100 c6created (by unfold BooksWF; decide) (by decide) (by decide) 1⟩

/-! ## C1: stock nonnegativity across order-operation sequences -/

/-- Every stored book has nonnegative stock. -/
def StocksNonneg (books : List (Int × Book)) : Prop :=
  ∀ p ∈ books, 0 ≤ (p.2 : Book).stock

instance (books : List (Int × Book)) : Decidable (StocksNonneg books) :=
  inferInstanceAs (Decidable (∀ p ∈ books, 0 ≤ (p.2 : Book).stock))

/-- Every stored order's items carry a quantity of at least 1, the well-formed
shape of an `OrderItem` (spec §3: items reference "a quantity ≥ 1"). -/
def OrdersItemsPos (orders : List (Int × Order)) : Prop :=
  ∀ p ∈ orders, ∀ it ∈ (p.2 : Order).items, 1 ≤ it.quantity

instance (orders : List (Int × Order)) : Decidable (OrdersItemsPos orders) :=
  inferInstanceAs (Decidable (∀ p ∈ orders, ∀ it ∈ (p.2 : Order).items, 1 ≤ it.quantity))

/-- One order-mutating HTTP request: `POST /orders`, `PUT /orders/{id}` or
`DELETE /orders/{id}`. -/
inductive OrderOp where
  | create (req : Order) (now : Int)
  | update (id : Int) (req : Order)
  | delete (id : Int)

/-- The request payload of the operation only carries well-formed items
(spec §3: an item's quantity is at least 1). -/
def ReqItemsPos : OrderOp → Prop
  | .create req _ => ∀ it ∈ req.items, 1 ≤ it.quantity
  | .update _ req => ∀ it ∈ req.items, 1 ≤ it.quantity
  | .delete _ => True

instance : ∀ op, Decidable (ReqItemsPos op)
  | .create req _ => inferInstanceAs (Decidable (∀ it ∈ req.items, 1 ≤ it.quantity))
  | .update _ req => inferInstanceAs (Decidable (∀ it ∈ req.items, 1 ≤ it.quantity))
  | .delete _ => inferInstanceAs (Decidable True)

/-- Run one order operation against the system, keeping the state. -/
def applyOrderOp (s : SysState) : OrderOp → SysState
  | .create req now => (CreateOrderCtrl s req now).1
  | .update id req => (UpdateOrderCtrl s id req).1
  | .delete id => (DeleteOrderCtrl s id).1

/-- Run a sequence of order operations left to right. -/
def runOrderOps (s : SysState) (ops : List OrderOp) : SysState :=
  ops.foldl applyOrderOp s

theorem stocksNonneg_mput (m : List (Int × Book)) (k : Int) (b : Book)
    (hm : StocksNonneg m) (hb : 0 ≤ b.stock) : StocksNonneg (mput m k b) := by
  intro p hp
  rcases mem_mput hp with h | h
  · rw [h]; exact hb
  · exact hm p h

theorem ordersItemsPos_mput (m : List (Int × Order)) (k : Int) (o : Order)
    (hm : OrdersItemsPos m) (ho : ∀ it ∈ o.items, 1 ≤ it.quantity) :
    OrdersItemsPos (mput m k o) := by
  intro p hp
  rcases mem_mput hp with h | h
  · rw [h]; exact ho
  · exact hm p h

theorem ordersItemsPos_mdel (m : List (Int × Order)) (k : Int)
    (hm : OrdersItemsPos m) : OrdersItemsPos (mdel m k) :=
  fun p hp => hm p (mem_mdel hp)

theorem memOrderCreate_ordersItemsPos (st : MemOrderStore) (o : Order)
    (hm : OrdersItemsPos st.orders) (ho : ∀ it ∈ o.items, 1 ≤ it.quantity) :
    OrdersItemsPos (memOrderCreate st o).1.orders := by
  unfold memOrderCreate
  split_ifs with h1 h2 h3
  · exact hm
  · exact ordersItemsPos_mput st.orders o.id o hm ho
  · exact ordersItemsPos_mput st.orders o.id o hm ho
  · exact ordersItemsPos_mput st.orders st.nextID ({ o with id := st.nextID }) hm ho

theorem memOrderUpdate_ordersItemsPos (st : MemOrderStore) (id : Int) (o : Order)
    (hm : OrdersItemsPos st.orders) (ho : ∀ it ∈ o.items, 1 ≤ it.quantity) :
    OrdersItemsPos (memOrderUpdate st id o).1.orders := by
  unfold memOrderUpdate
  cases hg : mget st.orders id with
  | none => exact hm
  | some o0 => exact ordersItemsPos_mput _ _ _ hm ho

theorem memOrderDelete_ordersItemsPos (st : MemOrderStore) (id : Int)
    (hm : OrdersItemsPos st.orders) :
    OrdersItemsPos (memOrderDelete st id).1.orders := by
  unfold memOrderDelete
  cases hg : mget st.orders id with
  | none => exact hm
  | some o0 => exact ordersItemsPos_mdel _ _ hm

theorem restoreItems_stocksNonneg (items : List OrderItem) :
    ∀ store : InMemoryBookStore, BooksWF store.books → StocksNonneg store.books →
    (∀ it ∈ items, 1 ≤ it.quantity) →
    StocksNonneg (restoreItems store items).books := by
  induction items with
  | nil => intro store _ hs _; exact hs
  | cons item rest ih =>
      intro store hwf hs hpos
      cases hgb : mget store.books item.bookId with
      | none =>
          rw [restoreItems_cons_missing store item rest hgb]
          exact ih store hwf hs (fun it hit => hpos it (List.mem_cons_of_mem _ hit))
      | some book =>
          have hbid : book.id = item.bookId := booksWF_book_id hwf hgb
          rw [restoreItems_cons_found store item rest book hgb hbid]
          have hb0 : 0 ≤ book.stock := hs _ (mget_eq_some_mem hgb)
          have hq1 : 1 ≤ item.quantity := hpos item (List.mem_cons_self _ _)
          exact ih (restoreStore store item book)
            (booksWF_mput hwf (by rw [hbid]))
            (stocksNonneg_mput _ _ _ hs (by dsimp only; omega))
            (fun it hit => hpos it (List.mem_cons_of_mem _ hit))

theorem processItems_inv (items : List OrderItem) :
    ∀ store : InMemoryBookStore, BooksWF store.books → StocksNonneg store.books →
    StocksNonneg (processItems store items).1.books ∧
    ((∀ it ∈ items, 1 ≤ it.quantity) →
      ∀ it2 ∈ (processItems store items).2.1, 1 ≤ it2.quantity) := by
  induction items with
  | nil =>
      intro store _ hs
      refine ⟨hs, ?_⟩
      intro _ it2 hit2
      simp [processItems] at hit2
  | cons item rest ih =>
      intro store hwf hs
      cases hgb : mget store.books item.bookId with
      | none =>
          rw [processItems_cons_missing store item rest hgb]
          obtain ⟨h1, h2⟩ := ih store hwf hs
          exact ⟨h1, fun hpos => h2 (fun it hit => hpos it (List.mem_cons_of_mem _ hit))⟩
      | some book =>
          have hbid : book.id = item.bookId := booksWF_book_id hwf hgb
          by_cases hcond : item.quantity > book.stock ∨ book.stock = 0
          · rw [processItems_cons_reject store item rest book hgb hcond]
            obtain ⟨h1, h2⟩ := ih store hwf hs
            exact ⟨h1, fun hpos => h2 (fun it hit => hpos it (List.mem_cons_of_mem _ hit))⟩
          · rcases not_or.mp hcond with ⟨hq, hsz⟩
            rw [processItems_cons_accept store item rest book hgb hbid hq hsz]
            have hb0 : 0 ≤ book.stock := hs _ (mget_eq_some_mem hgb)
            obtain ⟨h1, h2⟩ := ih (acceptStore store item book)
              (booksWF_mput hwf (by rw [hbid]))
              (stocksNonneg_mput _ _ _ hs (by dsimp only; omega))
            refine ⟨h1, ?_⟩
            intro hpos it2 hit2
            rcases List.mem_cons.mp hit2 with h3 | h3
            · rw [h3]; exact hpos item (List.mem_cons_self _ _)
            · exact h2 (fun it hit => hpos it (List.mem_cons_of_mem _ hit)) it2 h3

theorem memOrderGet_ok_mget (st : MemOrderStore) (idk : Int) (o : Order)
    (h : memOrderGet st idk = .ok o) : mget st.orders idk = some o := by
  unfold memOrderGet at h
  cases hg : mget st.orders idk with
  | none => rw [hg] at h; exact absurd h (by simp)
  | some o0 =>
      rw [hg] at h
      injection h with h2
      rw [h2]

theorem CreateOrderCtrl_memOrders (s : SysState) (req : Order) (now : Int) :
    (CreateOrderCtrl s req now).1.memOrders = s.memOrders ∨
    ∃ pgo : Order, pgo.items = (processItems s.memBooks req.items).2.1 ∧
      (CreateOrderCtrl s req now).1.memOrders = (memOrderCreate s.memOrders pgo).1 := by
  unfold CreateOrderCtrl
  rcases hval : createOrderValidated s req now with ⟨books1, r⟩
  cases r with
  | error e => exact Or.inl rfl
  | ok order =>
      dsimp only
      rcases hpg : pgOrderCreate s.pgOrders order with ⟨pg1, r2⟩
      cases r2 with
      | error e => exact Or.inl rfl
      | ok pgo =>
          dsimp only
          have hpi : pgo.items = (processItems s.memBooks req.items).2.1 := by
            rw [(pgOrderCreate_ok_fields s.pgOrders order pgo pg1 hpg).1,
                (createOrderValidated_ok_elim s req now books1 order hval).2.1]
          rcases hmem : memOrderCreate s.memOrders pgo with ⟨mem1, r3⟩
          cases r3 with
          | error e =>
              refine Or.inr ⟨pgo, hpi, ?_⟩
              rw [hmem]
          | ok o2 =>
              refine Or.inr ⟨pgo, hpi, ?_⟩
              rw [hmem]

theorem CreateOrderCtrl_inv (s : SysState) (req : Order) (now : Int)
    (hwf : BooksWF s.memBooks.books)
    (hstock : StocksNonneg s.memBooks.books)
    (hords : OrdersItemsPos s.memOrders.orders)
    (hreq : ∀ it ∈ req.items, 1 ≤ it.quantity) :
    BooksWF (CreateOrderCtrl s req now).1.memBooks.books ∧
    StocksNonneg (CreateOrderCtrl s req now).1.memBooks.books ∧
    OrdersItemsPos (CreateOrderCtrl s req now).1.memOrders.orders := by
  refine ⟨?_, ?_, ?_⟩
  · rw [CreateOrderCtrl_memBooks]
    rcases createOrderValidated_books s req now with h | h <;> rw [h]
    · exact hwf
    · exact (processItems_spec req.items s.memBooks hwf).1
  · rw [CreateOrderCtrl_memBooks]
    rcases createOrderValidated_books s req now with h | h <;> rw [h]
    · exact hstock
    · exact (processItems_inv req.items s.memBooks hwf hstock).1
  · rcases CreateOrderCtrl_memOrders s req now with h | ⟨pgo, hpi, h⟩ <;> rw [h]
    · exact hords
    · refine memOrderCreate_ordersItemsPos _ _ hords ?_
      rw [hpi]
      exact (processItems_inv req.items s.memBooks hwf hstock).2 hreq

theorem UpdateOrderCtrl_shape (s : SysState) (idk : Int) (req : Order) :
    ((UpdateOrderCtrl s idk req).1.memBooks = s.memBooks ∧
     (UpdateOrderCtrl s idk req).1.memOrders = s.memOrders) ∨
    ∃ order : Order, mget s.memOrders.orders idk = some order ∧
      (UpdateOrderCtrl s idk req).1.memBooks =
        (processItems (restoreItems s.memBooks order.items) req.items).1 ∧
      ((UpdateOrderCtrl s idk req).1.memOrders = s.memOrders ∨
       ∃ uo : Order,
         uo.items = (processItems (restoreItems s.memBooks order.items) req.items).2.1 ∧
         (UpdateOrderCtrl s idk req).1.memOrders = (memOrderUpdate s.memOrders idk uo).1) := by
  unfold UpdateOrderCtrl
  cases hget : memOrderGet s.memOrders idk with
  | error e => exact Or.inl ⟨rfl, rfl⟩
  | ok existingOrder =>
      dsimp only
      have hmg := memOrderGet_ok_mget s.memOrders idk existingOrder hget
      by_cases hst : existingOrder.status = OrderStatusSuccess
      · rw [if_pos hst]
        exact Or.inl ⟨rfl, rfl⟩
      · rw [if_neg hst]
        cases hres : resolveUpdateCustomer s.memCustomers req.customer with
        | error e => exact Or.inl ⟨rfl, rfl⟩
        | ok customer =>
            dsimp only
            rcases hpi : processItems (restoreItems s.memBooks existingOrder.items)
                req.items with ⟨books1, valid, perr⟩
            cases perr with
            | some e =>
                refine Or.inr ⟨existingOrder, hmg, ?_, Or.inl rfl⟩
                rw [hpi]
            | none =>
                dsimp only
                by_cases hemp : valid.isEmpty
                · rw [if_pos hemp]
                  refine Or.inr ⟨existingOrder, hmg, ?_, Or.inl rfl⟩
                  rw [hpi]
                · rw [if_neg hemp]
                  rcases hmu : memOrderUpdate s.memOrders idk ({ req with customer := customer, items := valid, createdAt := existingOrder.createdAt }) with ⟨mem1, r⟩
                  cases r with
                  | error e =>
                      refine Or.inr ⟨existingOrder, hmg, by rw [hpi],
                        Or.inr ⟨{ req with customer := customer, items := valid, createdAt := existingOrder.createdAt }, by rw [hpi], ?_⟩⟩
                      rw [hmu]
                  | ok u2 =>
                      refine Or.inr ⟨existingOrder, hmg, by rw [hpi],
                        Or.inr ⟨{ req with customer := customer, items := valid, createdAt := existingOrder.createdAt }, by rw [hpi], ?_⟩⟩
                      rw [hmu]

theorem UpdateOrderCtrl_inv (s : SysState) (idk : Int) (req : Order)
    (hwf : BooksWF s.memBooks.books)
    (hstock : StocksNonneg s.memBooks.books)
    (hords : OrdersItemsPos s.memOrders.orders)
    (hreq : ∀ it ∈ req.items, 1 ≤ it.quantity) :
    BooksWF (UpdateOrderCtrl s idk req).1.memBooks.books ∧
    StocksNonneg (UpdateOrderCtrl s idk req).1.memBooks.books ∧
    OrdersItemsPos (UpdateOrderCtrl s idk req).1.memOrders.orders := by
  rcases UpdateOrderCtrl_shape s idk req with ⟨hb, ho⟩ | ⟨order, hget, hb, hords2⟩
  · rw [hb, ho]
    exact ⟨hwf, hstock, hords⟩
  · have hOpos : ∀ it ∈ order.items, 1 ≤ it.quantity := hords _ (mget_eq_some_mem hget)
    have hwfR : BooksWF (restoreItems s.memBooks order.items).books :=
      (restoreItems_spec order.items s.memBooks hwf).1
    have hsR : StocksNonneg (restoreItems s.memBooks order.items).books :=
      restoreItems_stocksNonneg order.items s.memBooks hwf hstock hOpos
    have hPI := processItems_inv req.items (restoreItems s.memBooks order.items) hwfR hsR
    refine ⟨?_, ?_, ?_⟩
    · rw [hb]
      exact (processItems_spec req.items (restoreItems s.memBooks order.items) hwfR).1
    · rw [hb]
      exact hPI.1
    · rcases hords2 with h | ⟨uo, hui, h⟩ <;> rw [h]
      · exact hords
      · refine memOrderUpdate_ordersItemsPos _ _ _ hords ?_
        rw [hui]
        exact hPI.2 hreq

theorem DeleteOrderCtrl_shape (s : SysState) (idk : Int) :
    ((DeleteOrderCtrl s idk).1.memBooks = s.memBooks ∧
     (DeleteOrderCtrl s idk).1.memOrders = s.memOrders) ∨
    ∃ order : Order, mget s.memOrders.orders idk = some order ∧
      (DeleteOrderCtrl s idk).1.memBooks = restoreItems s.memBooks order.items ∧
      (DeleteOrderCtrl s idk).1.memOrders = (memOrderDelete s.memOrders idk).1 := by
  unfold DeleteOrderCtrl
  cases hget : memOrderGet s.memOrders idk with
  | error e => exact Or.inl ⟨rfl, rfl⟩
  | ok order =>
      dsimp only
      have hmg := memOrderGet_ok_mget s.memOrders idk order hget
      by_cases hst : order.status = OrderStatusSuccess
      · rw [if_pos hst]
        exact Or.inl ⟨rfl, rfl⟩
      · rw [if_neg hst]
        rcases hmd : memOrderDelete s.memOrders idk with ⟨mem1, r⟩
        cases r with
        | some e => exact Or.inr ⟨order, hmg, rfl, rfl⟩
        | none => exact Or.inr ⟨order, hmg, rfl, rfl⟩

theorem DeleteOrderCtrl_inv (s : SysState) (idk : Int)
    (hwf : BooksWF s.memBooks.books)
    (hstock : StocksNonneg s.memBooks.books)
    (hords : OrdersItemsPos s.memOrders.orders) :
    BooksWF (DeleteOrderCtrl s idk).1.memBooks.books ∧
    StocksNonneg (DeleteOrderCtrl s idk).1.memBooks.books ∧
    OrdersItemsPos (DeleteOrderCtrl s idk).1.memOrders.orders := by
  rcases DeleteOrderCtrl_shape s idk with ⟨hb, ho⟩ | ⟨order, hget, hb, ho⟩
  · rw [hb, ho]
    exact ⟨hwf, hstock, hords⟩
  · have hOpos : ∀ it ∈ order.items, 1 ≤ it.quantity := hords _ (mget_eq_some_mem hget)
    rw [hb, ho]
    exact ⟨(restoreItems_spec order.items s.memBooks hwf).1,
      restoreItems_stocksNonneg order.items s.memBooks hwf hstock hOpos,
      memOrderDelete_ordersItemsPos _ _ hords⟩

theorem runOrderOps_inv (ops : List OrderOp) : ∀ s : SysState,
    BooksWF s.memBooks.books →
    StocksNonneg s.memBooks.books →
    OrdersItemsPos s.memOrders.orders →
    (∀ op ∈ ops, ReqItemsPos op) →
    BooksWF (runOrderOps s ops).memBooks.books ∧
    StocksNonneg (runOrderOps s ops).memBooks.books ∧
    OrdersItemsPos (runOrderOps s ops).memOrders.orders := by
  induction ops with
  | nil => intro s h1 h2 h3 _; exact ⟨h1, h2, h3⟩
  | cons op rest ih =>
      intro s h1 h2 h3 hops
      have hop : ReqItemsPos op := hops op (List.mem_cons_self _ _)
      have hstep : BooksWF (applyOrderOp s op).memBooks.books ∧
          StocksNonneg (applyOrderOp s op).memBooks.books ∧
          OrdersItemsPos (applyOrderOp s op).memOrders.orders := by
        cases op with
        | create req now => exact CreateOrderCtrl_inv s req now h1 h2 h3 hop
        | update idk req => exact UpdateOrderCtrl_inv s idk req h1 h2 h3 hop
        | delete idk => exact DeleteOrderCtrl_inv s idk h1 h2 h3
      exact ih (applyOrderOp s op) hstep.1 hstep.2.1 hstep.2.2
        (fun o ho => hops o (List.mem_cons_of_mem _ ho))

/-- C1: starting from a state whose book store is well-keyed with nonnegative
stocks and whose stored orders carry only items of quantity ≥ 1 (the spec §3
shape of an `OrderItem`), after any sequence of CreateOrder, UpdateOrder and
DeleteOrder requests whose payload items all have quantity ≥ 1, every book in
the store has stock ≥ 0: the validation loop decrements a book's stock by an
item's quantity only when the quantity is at most the current stock and the
stock is nonzero, and the restore loops add back stored (hence positive)
quantities. -/
theorem C1_stock_nonneg_invariant (s : SysState) (ops : List OrderOp)
    (hwf : BooksWF s.memBooks.books)
    (hstock : StocksNonneg s.memBooks.books)
    (hords : OrdersItemsPos s.memOrders.orders)
    (hops : ∀ op ∈ ops, ReqItemsPos op) :
    StocksNonneg (runOrderOps s ops).memBooks.books :=
  (runOrderOps_inv ops s hwf hstock hords hops).2.1

/-- Book of the C1 witness. -/
def c1book : Book := { id := 1, title := "A", authorId := 1, price := 5, stock := 3 }

/-- Customer of the C1 witness. -/
def c1customer : Customer := { id := 7, name := "n", email := "e" }

/-- C1 witness state. -/
def c1state : SysState :=
  { memBooks := { books := [(1, c1book)], nextID := 2 }
    memOrders := { orders := [], nextID := 1 }
    memCustomers := [(7, c1customer)]
    memAuthors := []
    pgOrders := { orders := [], nextID := 1 }
    pgBooks := []
    pgAuthors := [] }

/-- C1 witness create request: 2 units of book 1. -/
def c1req : Order :=
  { id := 0, customer := { id := 7, name := "", email := "" },
    items := [⟨1, 2⟩], totalPrice := 10, createdAt := 0, status := "" }

/-- C1 witness update request: 3 units of book 1. -/
def c1req2 : Order :=
  { id := 0, customer := { id := 7, name := "", email := "" },
    items := [⟨1, 3⟩], totalPrice := 15, createdAt := 0, status := "" }

/-- C1 witness operation sequence: create, update, delete the same order. -/
def c1ops : List OrderOp := [.create c1req 10, .update 1 c1req2, .delete 1]

/-- Witness for C1 at a concrete state and operation sequence. -/
theorem C1_stock_nonneg_invariant_witness :
    StocksNonneg c1state.memBooks.books ∧
    OrdersItemsPos c1state.memOrders.orders ∧
    StocksNonneg (runOrderOps c1state c1ops).memBooks.books :=
  ⟨by decide, by decide,
   C1_stock_nonneg_invariant c1state c1ops (by unfold BooksWF; decide) (by decide)
     (by decide) (by decide)⟩

/-! ## Claim C2: write-through discipline -/

/-- C2 (amended): only order *creation* follows the authoritative-first
write-through policy.  `CreateOrder` applies PostgreSQL first and, if the
authoritative create fails, returns its error with the cache's order store
untouched.  But every update and delete mutates the cache first:
`UpdateOrder`, `DeleteOrder`, `UpdateAuthor` and `DeleteAuthor` each apply the
cache mutation and only then attempt the authoritative mutation, whose failure
is merely logged — the operation still reports success and the cache stays
mutated, so a failed authoritative apply does not leave the cache unchanged.
The five conjuncts settle, in order: CreateOrder, UpdateOrder, DeleteOrder,
UpdateAuthor, DeleteAuthor. -/
theorem C2_write_through_only_for_creates :
    (∀ (s : SysState) (req : Order) (now : Int) (books1 : InMemoryBookStore)
       (order : Order) (pg1 : PgOrderStore) (e : ErrorResponse),
       createOrderValidated s req now = (books1, .ok order) →
       pgOrderCreate s.pgOrders order = (pg1, .error e) →
       (CreateOrderCtrl s req now).2 = .error e ∧
       (CreateOrderCtrl s req now).1.memOrders = s.memOrders) ∧
    (∀ (s : SysState) (idk : Int) (req order : Order) (customer : Customer)
       (books1 : InMemoryBookStore) (valid : List OrderItem),
       mget s.memOrders.orders idk = some order →
       ¬ order.status = OrderStatusSuccess →
       resolveUpdateCustomer s.memCustomers req.customer = .ok customer →
       processItems (restoreItems s.memBooks order.items) req.items =
         (books1, valid, none) →
       valid.isEmpty = false →
       mget s.pgOrders.orders idk = none →
       (pgOrderUpdate s.pgOrders idk ({ req with customer := customer, items := valid, createdAt := order.createdAt, id := idk })).2 =
         .error ⟨"Failed to insert order item: foreign key violation"⟩ ∧
       (UpdateOrderCtrl s idk req).2 =
         .ok ({ req with customer := customer, items := valid, createdAt := order.createdAt, id := idk }) ∧
       mget (UpdateOrderCtrl s idk req).1.memOrders.orders idk =
         some ({ req with customer := customer, items := valid, createdAt := order.createdAt, id := idk })) ∧
    (∀ (s : SysState) (idk : Int) (order : Order),
       mget s.memOrders.orders idk = some order →
       ¬ order.status = OrderStatusSuccess →
       mget s.pgOrders.orders idk = none →
       (pgOrderDelete s.pgOrders idk).2 = some ⟨"Order not found"⟩ ∧
       (DeleteOrderCtrl s idk).2 = .ok () ∧
       mget (DeleteOrderCtrl s idk).1.memOrders.orders idk = none) ∧
    (∀ (s : SysState) (id : Int) (author : Author) (a : Author),
       ((GetAllBooks s.memBooks).any fun book => book.authorId == id) = false →
       mget s.memAuthors id = some a →
       mget s.pgAuthors id = none →
       (pgAuthorUpdate s.pgAuthors id { author with id := id }).2 =
         .error ⟨"Author not found"⟩ ∧
       UpdateAuthorCtrl s id author =
         ({ s with memAuthors := mput s.memAuthors id { author with id := id } },
          .ok { author with id := id })) ∧
    (∀ (s : SysState) (idA : Int) (a : Author),
       mget s.memAuthors idA = some a →
       mget s.pgAuthors idA = none →
       (pgAuthorDelete s.pgAuthors idA).2 = some ⟨"Author not found"⟩ ∧
       (DeleteAuthorCtrl s idA).2 = .ok () ∧
       mget (DeleteAuthorCtrl s idA).1.memAuthors idA = none) := by
  refine ⟨?_, ?_, ?_, ?_, ?_⟩
  · intro s req now books1 order pg1 e hval hpg
    unfold CreateOrderCtrl
    rw [hval]
    dsimp only
    rw [hpg]
    exact ⟨rfl, rfl⟩
  · intro s idk req order customer books1 valid hmg hst hres hpi hemp hpg
    have hget : memOrderGet s.memOrders idk = .ok order := by
      unfold memOrderGet
      rw [hmg]
    have hvne : ¬ valid.isEmpty = true := by
      rw [hemp]
      exact Bool.false_ne_true
    have hctrl : UpdateOrderCtrl s idk req =
        ({ s with
            memBooks := books1
            memOrders := { s.memOrders with orders := mput s.memOrders.orders idk ({ req with customer := customer, items := valid, createdAt := order.createdAt, id := idk }) }
            pgOrders := (pgOrderUpdate s.pgOrders idk ({ req with customer := customer, items := valid, createdAt := order.createdAt, id := idk })).1 },
         .ok ({ req with customer := customer, items := valid, createdAt := order.createdAt, id := idk })) := by
      unfold UpdateOrderCtrl
      rw [hget]
      dsimp only
      rw [if_neg hst, hres]
      dsimp only
      rw [hpi]
      dsimp only
      rw [hemp]
      simp only [Bool.false_eq_true, if_false]
      unfold memOrderUpdate
      dsimp only
      rw [hmg]
    refine ⟨?_, ?_, ?_⟩
    · unfold pgOrderUpdate
      rw [hpg]
      dsimp only
      rw [if_neg hvne]
    · rw [hctrl]
    · rw [hctrl]
      exact mget_mput_self _ _ _
  · intro s idk order hmg hst hpg
    refine ⟨?_, ?_, ?_⟩
    · unfold pgOrderDelete
      rw [hpg]
    · rw [DeleteOrderCtrl_pending s idk order hmg hst]
    · rw [DeleteOrderCtrl_pending s idk order hmg hst]
      exact mget_mdel_self _ _
  · intro s id author a hany hmem hpg
    constructor
    · unfold pgAuthorUpdate
      rw [hpg]
    · unfold UpdateAuthorCtrl
      rw [hany]
      simp only [Bool.false_eq_true, if_false]
      unfold memAuthorUpdate
      rw [hmem]
      dsimp only
      unfold pgAuthorUpdate
      rw [hpg]
  · intro s idA a hmem hpg
    have hstage : deleteAuthorStage1 s idA =
        ({ s with memAuthors := mdel s.memAuthors idA }, none) := by
      unfold deleteAuthorStage1 memAuthorDelete
      rw [hmem]
    refine ⟨?_, ?_, ?_⟩
    · unfold pgAuthorDelete
      rw [hpg]
    · unfold DeleteAuthorCtrl
      rw [hstage]
    · unfold DeleteAuthorCtrl
      rw [hstage]
      dsimp only
      rw [(deleteAuthorLoop_frame idA
        (GetAllBooks ({ s with memAuthors := mdel s.memAuthors idA } : SysState).memBooks)
        ({ s with memAuthors := mdel s.memAuthors idA })).2.1]
      exact mget_mdel_self _ _

/-- Stored author for the C2 instances. -/
def c2author : Author := { id := 1, firstName := "f", lastName := "l", bio := "b" }

/-- Replacement author payload for the C2 instances. -/
def c2authorNew : Author := { id := 0, firstName := "g", lastName := "m", bio := "c" }

/-- C2 instance state: author 1 exists in the cache but not in PostgreSQL. -/
def c2state : SysState :=
  { memBooks := { books := [], nextID := 1 }
    memOrders := { orders := [], nextID := 1 }
    memCustomers := []
    memAuthors := [(1, c2author)]
    pgOrders := { orders := [], nextID := 1 }
    pgBooks := []
    pgAuthors := [] }

/-- C2 counterexample: updating author 1 at `c2state` — the authoritative
(PostgreSQL) update fails with "Author not found" (its table has no row 1),
yet the operation reports success and the cache's author record has changed.
The claim requires the cache to stay unchanged when the authoritative apply
fails. -/
theorem C2_counterexample :
    (pgAuthorUpdate c2state.pgAuthors 1 { c2authorNew with id := 1 }).2 =
      .error ⟨"Author not found"⟩ ∧
    (UpdateAuthorCtrl c2state 1 c2authorNew).2 = .ok { c2authorNew with id := 1 } ∧
    (UpdateAuthorCtrl c2state 1 c2authorNew).1.pgAuthors = c2state.pgAuthors ∧
    mget (UpdateAuthorCtrl c2state 1 c2authorNew).1.memAuthors 1 =
      some { c2authorNew with id := 1 } ∧
    mget c2state.memAuthors 1 = some c2author ∧
    c2author ≠ { c2authorNew with id := 1 } := by
  decide

/-- Book for the C2 witness state. -/
def c2wBook : Book := { id := 1, title := "A", authorId := 1, price := 10, stock := 5 }

/-- Customer for the C2 witness state. -/
def c2wCustomer : Customer := { id := 7, name := "n", email := "e" }

/-- Pre-existing PostgreSQL order occupying id 5 (so the authoritative create
of a request carrying id 5 fails). -/
def c2wOldPgOrder : Order :=
  { id := 5, customer := c2wCustomer, items := [⟨1, 1⟩],
    totalPrice := 10, createdAt := 0, status := "pending" }

/-- C2 witness state for the create half. -/
def c2wState : SysState :=
  { memBooks := { books := [(1, c2wBook)], nextID := 2 }
    memOrders := { orders := [], nextID := 1 }
    memCustomers := [(7, c2wCustomer)]
    memAuthors := []
    pgOrders := { orders := [(5, c2wOldPgOrder)], nextID := 6 }
    pgBooks := []
    pgAuthors := [] }

/-- C2 witness request (carries the occupied id 5). -/
def c2wReq : Order :=
  { id := 5, customer := { id := 7, name := "", email := "" },
    items := [⟨1, 2⟩], totalPrice := 20, createdAt := 0, status := "" }

/-- The validated order the C2 witness create produces. -/
def c2wOrder : Order :=
  { id := 5, customer := c2wCustomer, items := [⟨1, 2⟩],
    totalPrice := 20, createdAt := 100, status := "pending" }

/-- Pending cache order 3 for the C2 update/delete-order instances; it is
absent from the PostgreSQL order table. -/
def c2dOrder : Order :=
  { id := 3, customer := c2wCustomer, items := [⟨1, 2⟩],
    totalPrice := 20, createdAt := 0, status := "pending" }

/-- C2 instance state for the cache-first halves: order 3 and book 1 live in
the cache while the PostgreSQL order table is empty. -/
def c2dState : SysState :=
  { memBooks := { books := [(1, c2wBook)], nextID := 2 }
    memOrders := { orders := [(3, c2dOrder)], nextID := 4 }
    memCustomers := [(7, c2wCustomer)]
    memAuthors := []
    pgOrders := { orders := [], nextID := 1 }
    pgBooks := []
    pgAuthors := [] }

/-- Update payload for the C2 UpdateOrder instance. -/
def c2dReq : Order :=
  { id := 0, customer := { id := 7, name := "", email := "" },
    items := [⟨1, 1⟩], totalPrice := 10, createdAt := 0, status := "pending" }

/-- Witness for C2 at concrete inputs: all five conjuncts instantiated. -/
theorem C2_write_through_only_for_creates_witness :
    ((CreateOrderCtrl c2wState c2wReq 100).2 =
        .error ⟨"Failed to insert order: duplicate key"⟩ ∧
     (CreateOrderCtrl c2wState c2wReq 100).1.memOrders = c2wState.memOrders) ∧
    ((pgOrderUpdate c2dState.pgOrders 3 ({ c2dReq with customer := c2wCustomer, items := [⟨1, 1⟩], createdAt := c2dOrder.createdAt, id := 3 })).2 =
        .error ⟨"Failed to insert order item: foreign key violation"⟩ ∧
     (UpdateOrderCtrl c2dState 3 c2dReq).2 =
        .ok ({ c2dReq with customer := c2wCustomer, items := [⟨1, 1⟩], createdAt := c2dOrder.createdAt, id := 3 }) ∧
     mget (UpdateOrderCtrl c2dState 3 c2dReq).1.memOrders.orders 3 =
        some ({ c2dReq with customer := c2wCustomer, items := [⟨1, 1⟩], createdAt := c2dOrder.createdAt, id := 3 })) ∧
    ((pgOrderDelete c2dState.pgOrders 3).2 = some ⟨"Order not found"⟩ ∧
     (DeleteOrderCtrl c2dState 3).2 = .ok () ∧
     mget (DeleteOrderCtrl c2dState 3).1.memOrders.orders 3 = none) ∧
    ((pgAuthorUpdate c2state.pgAuthors 1 { c2authorNew with id := 1 }).2 =
        .error ⟨"Author not found"⟩ ∧
     UpdateAuthorCtrl c2state 1 c2authorNew =
       ({ c2state with memAuthors := mput c2state.memAuthors 1 { c2authorNew with id := 1 } },
        .ok { c2authorNew with id := 1 })) ∧
    ((pgAuthorDelete c2state.pgAuthors 1).2 = some ⟨"Author not found"⟩ ∧
     (DeleteAuthorCtrl c2state 1).2 = .ok () ∧
     mget (DeleteAuthorCtrl c2state 1).1.memAuthors 1 = none) :=
  ⟨C2_write_through_only_for_creates.1 c2wState c2wReq 100
      { books := [(1, { c2wBook with stock := 3 })], nextID := 2 } c2wOrder
      c2wState.pgOrders ⟨"Failed to insert order: duplicate key"⟩
      (by decide) (by decide),
   C2_write_through_only_for_creates.2.1 c2dState 3 c2dReq c2dOrder c2wCustomer
      { books := [(1, { c2wBook with stock := 6 })], nextID := 2 } [⟨1, 1⟩]
      (by decide) (by decide) (by decide) (by decide) (by decide) (by decide),
   C2_write_through_only_for_creates.2.2.1 c2dState 3 c2dOrder
      (by decide) (by decide) (by decide),
   C2_write_through_only_for_creates.2.2.2.1 c2state 1 c2authorNew c2author
      (by decide) (by decide) (by decide),
   C2_write_through_only_for_creates.2.2.2.2 c2state 1 c2author
      (by decide) (by decide)⟩
